import Mathlib

/-!
Shallow embedding of the QA health-check engine: the SSL certificate checker,
the uptime monitor and the link validator, together with the
aggregation/classification logic, translated from the JavaScript sources.

Modelling conventions:
* Machine dates are epoch milliseconds as `Int`; `Math.floor` division is `Int.fdiv`.
* The runtime environment (WHATWG `URL` parsing/resolution, the network, the
  clock) is a record of oracle functions (`JsEnv`): `new URL(s)` is `parse`,
  `new URL(s, base)` is `resolve` (an `Except` mirrors the thrown
  `TypeError` and its message), and every network call is keyed by the URL
  string it targets.  The engine code itself — classification, crawling,
  dedup, summaries — is translated directly from the source.
* Functions that `resolve` a promise with a result record are pure functions
  to a result structure; the two distinct JS object shapes returned by the
  page-link scan are the two constructors of `PageScan`.
* Rendering-only fields (issuer/subject strings, ISO timestamps, fingerprints,
  header echoes, format helpers) are omitted; every field a claim touches is kept.
-/

/-- The status taxonomy shared by the three checkers. -/
inductive Status where
  | ok
  | warning
  | critical
  | down
  | error
deriving DecidableEq, Repr

/-- The slice of a WHATWG `URL` object the engine reads: `toString()`
(field `full`), `hostname` and `protocol`. -/
structure RUrl where
  full : String
  hostname : String
  protocol : String
deriving DecidableEq, Repr

/-- A configured page: a path relative to the site's base URL and a label. -/
structure Page where
  path : String
  name : String
deriving DecidableEq, Repr

/-- A site descriptor (the check-enable flags are filtered by the
orchestrator before the engine runs, so they are not modelled). -/
structure Site where
  id : String
  name : String
  url : String
  pages : List Page
deriving DecidableEq, Repr

/-- What the TLS handshake of the SSL checker observes for a URL:
a peer certificate (validity window in epoch ms and the socket's
`authorized` flag), an empty certificate object, a request error,
or a timeout. -/
inductive CertEvent where
  | response (validFrom validTo : Int) (authorized : Option Bool)
  | noCert
  | reqError (msg : String)
  | timeout
deriving DecidableEq, Repr

/-- What an uptime GET observes: a response with a status code, the elapsed
milliseconds at the moment the response (headers) arrives, the elapsed
milliseconds when the body has been fully drained, and the body; or a
request error / timeout with the elapsed milliseconds at that moment. -/
inductive ProbeEvent where
  | response (statusCode : Nat) (headersElapsed completeElapsed : Nat) (body : String)
  | reqError (msg : String) (elapsed : Nat)
  | timeout (elapsed : Nat)
deriving DecidableEq, Repr

/-- What the link validator's page GET observes. -/
inductive FetchEvent where
  | response (statusCode : Nat) (body : String)
  | reqError (msg : String)
  | timeout
deriving DecidableEq, Repr

/-- What the link validator's HEAD existence probe observes. -/
inductive HeadEvent where
  | response (statusCode : Nat) (location : Option String)
  | reqError (msg : String)
  | timeout
deriving DecidableEq, Repr

/-- The runtime environment: URL library, clock and network oracles.
`parse s` models `new URL(s)` and `resolve s base` models `new URL(s, base)`;
`Except.error msg` models the thrown `TypeError` with `error.message = msg`. -/
structure JsEnv where
  parse : String → Except String RUrl
  resolve : String → String → Except String RUrl
  now : Int
  certEvent : String → CertEvent
  probeEvent : String → ProbeEvent
  fetchEvent : String → FetchEvent
  headEvent : String → HeadEvent

/-- `1000 * 60 * 60 * 24` milliseconds. -/
def msPerDay : Int := 86400000

/-- `Math.round (sum / n)` for natural `sum` and positive natural `n`:
floor of `sum / n + 1 / 2`. -/
def jsRound (sum n : Nat) : Nat := (2 * sum + n) / (2 * n)

/-- JS `a || b` on an optional string (`undefined` and `""` are falsy). -/
def jsOrStr (a : Option String) (b : String) : String :=
  match a with
  | some s => if s = "" then b else s
  | none => b

/-- JS truthiness of a possibly-undefined numeric field
(`undefined` and `0` are falsy). -/
def jsTruthyNat (a : Option Nat) : Bool :=
  match a with
  | some t => t != 0
  | none => false

namespace SSLChecker

/-- Injected thresholds (`warningDays`, `criticalDays`). -/
structure Cfg where
  warningDays : Int
  criticalDays : Int
deriving DecidableEq, Repr

/-- The SSL check result record (rendering-only fields omitted). -/
structure SSLResult where
  url : String
  hostname : Option String
  valid : Bool
  daysRemaining : Option Int
  isExpired : Option Bool
  status : Status
  error : Option String
deriving DecidableEq, Repr

/-- `SSLChecker.checkCertificate`: parse the URL, require `https:`, read the
peer certificate event and classify.  Every exit resolves to a result record. -/
def checkCertificate (cfg : Cfg) (env : JsEnv) (urlString : String) : SSLResult :=
  match env.parse urlString with
  | .error msg =>
    { url := urlString, hostname := none, valid := false, daysRemaining := none,
      isExpired := none, status := .error, error := some msg }
  | .ok u =>
    if u.protocol ≠ "https:" then
      { url := urlString, hostname := none, valid := false, daysRemaining := none,
        isExpired := none, status := .error, error := some "Not HTTPS" }
    else
      match env.certEvent urlString with
      | .noCert =>
        { url := urlString, hostname := some u.hostname, valid := false,
          daysRemaining := none, isExpired := none, status := .error,
          error := some "No certificate found" }
      | .reqError msg =>
        { url := urlString, hostname := some u.hostname, valid := false,
          daysRemaining := none, isExpired := none, status := .error,
          error := some msg }
      | .timeout =>
        { url := urlString, hostname := some u.hostname, valid := false,
          daysRemaining := none, isExpired := none, status := .error,
          error := some "Connection timeout" }
      | .response validFrom validTo authorized =>
        let now := env.now
        let daysRemaining : Int := Int.fdiv (validTo - now) msPerDay
        let isExpired : Bool := decide (now > validTo)
        let isNotYetValid : Bool := decide (now < validFrom)
        let valid : Bool := !isExpired && !isNotYetValid && !(authorized == some false)
        let status : Status :=
          if isExpired || isNotYetValid then .critical
          else if daysRemaining ≤ cfg.criticalDays then .critical
          else if daysRemaining ≤ cfg.warningDays then .warning
          else .ok
        { url := urlString, hostname := some u.hostname, valid := valid,
          daysRemaining := some daysRemaining, isExpired := some isExpired,
          status := status, error := none }

/-- The SSL summary record. -/
structure Summary where
  total : Nat
  valid : Nat
  invalid : Nat
  expiringSoon : Nat
  critical : Nat
  errors : Nat
  details : List SSLResult
  allHealthy : Bool
deriving Repr

/-- `SSLChecker.generateSummary`. -/
def generateSummary (results : List SSLResult) : Summary :=
  let invalid := (results.filter (fun r => !r.valid)).length
  let critical := (results.filter (fun r => r.status == .critical)).length
  let errors := (results.filter (fun r => r.status == .error)).length
  { total := results.length,
    valid := (results.filter (fun r => r.valid)).length,
    invalid := invalid,
    expiringSoon := (results.filter (fun r => r.status == .warning)).length,
    critical := critical,
    errors := errors,
    details := results,
    allHealthy := invalid == 0 && critical == 0 && errors == 0 }

end SSLChecker

namespace UptimeMonitor

/-- Injected latency thresholds in milliseconds. -/
structure Cfg where
  warningThreshold : Nat
  criticalThreshold : Nat
deriving DecidableEq, Repr

/-- A per-page probe result (header echoes and ISO timestamps omitted). -/
structure PageProbe where
  url : String
  hostname : Option String
  isUp : Bool
  statusCode : Option Nat
  responseTime : Option Nat
  status : Status
  contentLength : Option Nat
  error : Option String
  pageName : Option String
  pagePath : Option String
deriving DecidableEq, Repr

/-- `UptimeMonitor.checkSite`: issue a GET, classify by status code and by
the elapsed milliseconds recorded when the response arrives; the body is
drained before the result is resolved and its length recorded.  A request
construction failure (URL parse error) resolves to `status = error`. -/
def checkSite (cfg : Cfg) (env : JsEnv) (urlString : String) : PageProbe :=
  match env.parse urlString with
  | .error msg =>
    { url := urlString, hostname := none, isUp := false, statusCode := none,
      responseTime := none, status := .error, contentLength := none,
      error := some msg, pageName := none, pagePath := none }
  | .ok u =>
    match env.probeEvent urlString with
    | .response sc headersElapsed _completeElapsed body =>
      -- `const responseTime = Date.now() - startTime;` runs in the response
      -- callback, before the body is read.
      let responseTime := headersElapsed
      let isUp : Bool := decide (200 ≤ sc) && decide (sc < 400)
      let status : Status :=
        if !isUp then .down
        else if cfg.criticalThreshold ≤ responseTime then .critical
        else if cfg.warningThreshold ≤ responseTime then .warning
        else .ok
      { url := urlString, hostname := some u.hostname, isUp := isUp,
        statusCode := some sc, responseTime := some responseTime,
        status := status, contentLength := some body.length, error := none,
        pageName := none, pagePath := none }
    | .reqError msg elapsed =>
      { url := urlString, hostname := some u.hostname, isUp := false,
        statusCode := none, responseTime := some elapsed, status := .down,
        contentLength := none, error := some msg, pageName := none,
        pagePath := none }
    | .timeout elapsed =>
      { url := urlString, hostname := some u.hostname, isUp := false,
        statusCode := none, responseTime := some elapsed, status := .down,
        contentLength := none, error := some "Connection timeout",
        pageName := none, pagePath := none }

/-- The `overallStatus` computation of `checkSitePages`, on the list of
page statuses (initial value `ok`, then the three `includes` tests). -/
def overallStatusOf (statuses : List Status) : Status :=
  if statuses.contains .down || statuses.contains .error then .down
  else if statuses.contains .critical then .critical
  else if statuses.contains .warning then .warning
  else .ok

/-- The `avgResponseTime` computation of `checkSitePages`:
`pages.filter(p => p.responseTime).map(p => p.responseTime)`, then the
rounded mean, else `null`. -/
def avgResponseTimeOf (pages : List PageProbe) : Option Nat :=
  let validTimes := (pages.filter (fun p => jsTruthyNat p.responseTime)).filterMap
    (fun p => p.responseTime)
  if 0 < validTimes.length then some (jsRound validTimes.sum validTimes.length)
  else none

/-- A per-site uptime result. -/
structure SiteProbe where
  siteId : String
  siteName : String
  baseUrl : String
  pages : List PageProbe
  overallStatus : Status
  avgResponseTime : Option Nat
deriving DecidableEq, Repr

/-- The loop over the configured pages of `checkSitePages`.
`new URL(page.path, site.url)` is outside any `try`, so a resolution
failure propagates: the whole call fails (`none`). -/
def probePages (cfg : Cfg) (env : JsEnv) (baseUrl : String) :
    List Page → Option (List PageProbe)
  | [] => some []
  | p :: ps =>
    match env.resolve p.path baseUrl with
    | .error _ => none
    | .ok u =>
      let r := { checkSite cfg env u.full with
                   pageName := some p.name, pagePath := some p.path }
      match probePages cfg env baseUrl ps with
      | none => none
      | some rest => some (r :: rest)

/-- `UptimeMonitor.checkSitePages`: probe the main URL, then every
configured page; derive `overallStatus` and `avgResponseTime`. -/
def checkSitePages (cfg : Cfg) (env : JsEnv) (site : Site) :
    Option SiteProbe :=
  let mainResult := { checkSite cfg env site.url with pageName := some "Main" }
  match probePages cfg env site.url site.pages with
  | none => none
  | some rest =>
    let pages := mainResult :: rest
    some { siteId := site.id, siteName := site.name, baseUrl := site.url,
           pages := pages,
           overallStatus := overallStatusOf (pages.map (fun p => p.status)),
           avgResponseTime := avgResponseTimeOf pages }

/-- The page list of a site's uptime check (`[]` when a page path fails
to resolve and the call rejects). -/
def uptimePagesOf (cfg : Cfg) (env : JsEnv) (site : Site) : List PageProbe :=
  match checkSitePages cfg env site with
  | none => []
  | some r => r.pages

/-- The `overallStatus` of a site's uptime check. -/
def uptimeOverallOf (cfg : Cfg) (env : JsEnv) (site : Site) : Status :=
  match checkSitePages cfg env site with
  | none => .ok
  | some r => r.overallStatus

/-- The `avgResponseTime` of a site's uptime check. -/
def uptimeAvgOf (cfg : Cfg) (env : JsEnv) (site : Site) : Option Nat :=
  match checkSitePages cfg env site with
  | none => none
  | some r => r.avgResponseTime

/-- The uptime summary record (the percentage field, `NaN` on an empty
input, is rendering-only and omitted). -/
structure Summary where
  total : Nat
  up : Nat
  down : Nat
  slow : Nat
  details : List SiteProbe
  allHealthy : Bool
deriving Repr

/-- `UptimeMonitor.generateSummary`. -/
def generateSummary (results : List SiteProbe) : Summary :=
  let down := (results.filter
    (fun r => r.overallStatus == .down || r.overallStatus == .error)).length
  { total := results.length,
    up := (results.filter
      (fun r => r.overallStatus == .ok || r.overallStatus == .warning)).length,
    down := down,
    slow := (results.filter
      (fun r => r.overallStatus == .warning || r.overallStatus == .critical)).length,
    details := results,
    allHealthy := down == 0 }

end UptimeMonitor

/-- A specification-level helper: `error` collapsed to `down`, as the site
ordering treats a page-level `error` as `down`. -/
def collapseError : Status → Status
  | .error => .down
  | s => s

/-- Severity rank for the ordering `down > critical > warning > ok`
(`error` ranks with `down`). -/
def sevRank : Status → Nat
  | .ok => 0
  | .warning => 1
  | .critical => 2
  | .down => 3
  | .error => 3

/-- The worse of two statuses under `sevRank` (ties keep the right one). -/
def statusMax (a b : Status) : Status :=
  if sevRank a ≤ sevRank b then b else a

/-- The worst status of a list, with `error` collapsed to `down` —
the specification's reading of the site-level aggregation. -/
def worstStatus (l : List Status) : Status :=
  (l.map collapseError).foldr statusMax .ok

namespace LinkValidator

/-- ASCII subset of the JS `\s` class (the inputs under test use no
exotic Unicode whitespace). -/
def isJsSpace (c : Char) : Bool :=
  c = ' ' || c = Char.ofNat 9 || c = Char.ofNat 10 || c = Char.ofNat 13 ||
  c = Char.ofNat 11 || c = Char.ofNat 12

/-- A double or single quotation mark, the `["']` class of the regexes. -/
def isQuote (c : Char) : Bool := c = Char.ofNat 34 || c = Char.ofNat 39

/-- Case-insensitive literal match (the `i` flag); returns the rest. -/
def matchCI : List Char → List Char → Option (List Char)
  | [], s => some s
  | _ :: _, [] => none
  | a :: as, c :: cs => if a.toLower = c.toLower then matchCI as cs else none

/-- Drop leading `\s*`. -/
def dropSpaces (s : List Char) : List Char := s.dropWhile isJsSpace

/-- Consume one expected character. -/
def expectChar (c : Char) : List Char → Option (List Char)
  | [] => none
  | a :: rest => if a = c then some rest else none

/-- Consume one quotation mark. -/
def expectQuote : List Char → Option (List Char)
  | [] => none
  | a :: rest => if isQuote a then some rest else none

/-- Consume the nonempty capture `[^"']+`; greedy, no backtracking is
needed since the capture class and the closing class are disjoint. -/
def takeCap (s : List Char) : Option (List Char × List Char) :=
  let cap := s.takeWhile (fun c => !(isQuote c))
  if cap.isEmpty then none
  else some (cap, s.dropWhile (fun c => !(isQuote c)))

/-- Try to match `attr\s*=\s*["']([^"']+)["']` at the head of `s`
(case-insensitive in `attr`); on success return the capture and the rest
of the input after the whole match. -/
def tryMatch (attr : List Char) (s : List Char) : Option (List Char × List Char) :=
  (matchCI attr s).bind fun s1 =>
  (expectChar '=' (dropSpaces s1)).bind fun s2 =>
  (expectQuote (dropSpaces s2)).bind fun s3 =>
  (takeCap s3).bind fun cr =>
  (expectQuote cr.2).map fun s4 => (cr.1, s4)

theorem matchCI_length_le :
    ∀ (a s t : List Char), matchCI a s = some t → t.length ≤ s.length := by
  intro a
  induction a with
  | nil => intro s t h; simp [matchCI] at h; simp [h]
  | cons x xs ih =>
    intro s t h
    cases s with
    | nil => simp [matchCI] at h
    | cons c cs =>
      simp only [matchCI] at h
      split at h
      · exact Nat.le_trans (ih cs t h) (by simp)
      · exact absurd h (by simp)

theorem dropWhile_length_le (p : Char → Bool) :
    ∀ s : List Char, (s.dropWhile p).length ≤ s.length := by
  intro s
  induction s with
  | nil => simp
  | cons c rest ih =>
    by_cases h : p c = true
    · simp only [List.dropWhile_cons, h, if_true]
      exact Nat.le_trans ih (by simp)
    · simp [List.dropWhile_cons, h]

theorem dropSpaces_length_le (s : List Char) :
    (dropSpaces s).length ≤ s.length :=
  dropWhile_length_le _ _

theorem expectChar_length_lt {c : Char} {s t : List Char}
    (h : expectChar c s = some t) : t.length < s.length := by
  cases s with
  | nil => simp [expectChar] at h
  | cons a rest =>
    simp only [expectChar] at h
    split at h
    · cases h; simp
    · exact absurd h (by simp)

theorem expectQuote_length_lt {s t : List Char}
    (h : expectQuote s = some t) : t.length < s.length := by
  cases s with
  | nil => simp [expectQuote] at h
  | cons a rest =>
    simp only [expectQuote] at h
    split at h
    · cases h; simp
    · exact absurd h (by simp)

theorem takeCap_length_le {s : List Char} {cr : List Char × List Char}
    (h : takeCap s = some cr) : cr.2.length ≤ s.length := by
  simp only [takeCap] at h
  split at h
  · exact absurd h (by simp)
  · cases h; exact dropWhile_length_le _ _

theorem tryMatch_length_lt {attr s : List Char} {cr : List Char × List Char}
    (h : tryMatch attr s = some cr) : cr.2.length < s.length := by
  simp only [tryMatch, Option.bind_eq_some, Option.map_eq_some'] at h
  obtain ⟨s1, h1, s2, h2, s3, h3, c4, h4, s5, h5, heq⟩ := h
  have l1 := matchCI_length_le attr s s1 h1
  have l2 := expectChar_length_lt h2
  have l2' := dropSpaces_length_le s1
  have l3 := expectQuote_length_lt h3
  have l3' := dropSpaces_length_le s2
  have l4 := takeCap_length_le h4
  have l5 := expectQuote_length_lt h5
  have : cr.2 = s5 := by rw [← heq]
  rw [this]
  omega

/-- One pass of the global regex scan, fuel-bounded: at each position try a
match; on success record the capture and continue after the match (the `g`
flag's `lastIndex`), otherwise advance one character.  Every step consumes
at least one character, so fuel `s.length` never truncates the scan
(`scanAux_fuel_irrelevant`). -/
def scanAux (attr : List Char) : Nat → List Char → List (List Char)
  | 0, _ => []
  | _ + 1, [] => []
  | n + 1, c :: rest =>
    match tryMatch attr (c :: rest) with
    | some (cap, rem) => cap :: scanAux attr n rem
    | none => scanAux attr n rest

/-- All captures of `attr\s*=\s*["']([^"']+)["']` over the input, in order,
non-overlapping — the `while ((match = regex.exec(html)) !== null)` loop. -/
def scanAttr (attr : List Char) (s : List Char) : List (List Char) :=
  scanAux attr s.length s

theorem scanAux_fuel_irrelevant (attr : List Char) :
    ∀ (n m : Nat) (s : List Char), s.length ≤ n → s.length ≤ m →
      scanAux attr n s = scanAux attr m s := by
  intro n
  induction n with
  | zero =>
    intro m s hn _
    have : s = [] := List.length_eq_zero.mp (Nat.le_zero.mp hn)
    subst this
    cases m <;> simp [scanAux]
  | succ k ih =>
    intro m s hn hm
    cases s with
    | nil => cases m <;> simp [scanAux]
    | cons c rest =>
      cases m with
      | zero => simp at hm
      | succ j =>
        simp only [scanAux]
        cases htm : tryMatch attr (c :: rest) with
        | none =>
          have hl : rest.length ≤ k := by simp at hn; omega
          have hl' : rest.length ≤ j := by simp at hm; omega
          simp [ih j rest hl hl']
        | some cr =>
          obtain ⟨cap, rem⟩ := cr
          have hlt := tryMatch_length_lt htm
          simp at hlt hn hm
          have : rem.length ≤ k := by omega
          have h2 : rem.length ≤ j := by omega
          simp [ih j rem this h2]

/-- An extracted reference: the literal attribute text, the resolved
absolute URL, whether its host differs from the scanning page's host,
and whether it came from a `src` attribute. -/
structure Link where
  href : String
  absoluteUrl : String
  isExternal : Bool
  isResource : Bool
deriving DecidableEq, Repr

/-- `s.startsWith pre`, computed over the character lists. -/
def startsWithChars (s pre : String) : Bool :=
  List.isPrefixOf pre.toList s.toList

/-- The `href` extraction skip list: anchors, `javascript:`, `mailto:`, `tel:`. -/
def hrefExcluded (s : String) : Bool :=
  startsWithChars s "#" || startsWithChars s "javascript:" ||
  startsWithChars s "mailto:" || startsWithChars s "tel:"

/-- The `src` extraction skip list: `data:` and `blob:` URLs. -/
def srcExcluded (s : String) : Bool :=
  startsWithChars s "data:" || startsWithChars s "blob:"

/-- Resolve a captured attribute value against the page URL and build the
link record; a resolution (or re-parse) failure is caught and skipped. -/
def resolveLink (env : JsEnv) (base : RUrl) (baseUrl : String)
    (text : String) (isResource : Bool) : Option Link :=
  match env.resolve text baseUrl with
  | .error _ => none
  | .ok au =>
    match env.parse au.full with
    | .error _ => none
    | .ok re =>
      some { href := text, absoluteUrl := au.full,
             isExternal := re.hostname != base.hostname,
             isResource := isResource }

/-- `LinkValidator.extractLinks`: scan the markup for `href` and `src`
attributes, apply the per-attribute skip lists, resolve to absolute URLs.
(`new URL(baseUrl)` throws only when the page URL is unparsable, which the
callers exclude by fetching the page first; modelled as no links.) -/
def extractLinks (env : JsEnv) (html : String) (baseUrl : String) : List Link :=
  match env.parse baseUrl with
  | .error _ => []
  | .ok base =>
    let hrefs := (scanAttr "href".toList html.toList).filterMap fun cap =>
      let href := String.mk cap
      if hrefExcluded href then none else resolveLink env base baseUrl href false
    let srcs := (scanAttr "src".toList html.toList).filterMap fun cap =>
      let src := String.mk cap
      if srcExcluded src then none else resolveLink env base baseUrl src true
    hrefs ++ srcs

/-- One `Map.set` step of the dedup construction: an existing key keeps its
position and takes the new value; a new key is appended. -/
def upsert (m : List (String × Link)) (k : String) (v : Link) :
    List (String × Link) :=
  if m.any (fun p => p.1 = k) then
    m.map (fun p => if p.1 = k then (k, v) else p)
  else m ++ [(k, v)]

/-- `[...new Map(links.map(l => [l.absoluteUrl, l])).values()]`: dedup by
absolute URL, first-occurrence order, last occurrence's value. -/
def dedupByAbsoluteUrl (links : List Link) : List Link :=
  (links.foldl (fun m l => upsert m l.absoluteUrl l) []).map (fun p => p.2)

/-- `LinkValidator.fetchPage`'s result record. -/
structure FetchResult where
  url : String
  statusCode : Nat
  isOk : Bool
  body : Option String
  error : Option String
deriving DecidableEq, Repr

/-- `LinkValidator.fetchPage`: GET the page, classify by status code;
errors, timeouts and parse failures resolve to `isOk = false`. -/
def fetchPage (env : JsEnv) (urlString : String) : FetchResult :=
  match env.parse urlString with
  | .error msg =>
    { url := urlString, statusCode := 0, isOk := false, body := none,
      error := some msg }
  | .ok _ =>
    match env.fetchEvent urlString with
    | .response sc body =>
      { url := urlString, statusCode := sc,
        isOk := decide (200 ≤ sc) && decide (sc < 400), body := some body,
        error := none }
    | .reqError msg =>
      { url := urlString, statusCode := 0, isOk := false, body := none,
        error := some msg }
    | .timeout =>
      { url := urlString, statusCode := 0, isOk := false, body := none,
        error := some "Timeout" }

/-- `LinkValidator.checkLink`'s result record. -/
structure LinkCheck where
  url : String
  statusCode : Nat
  isOk : Bool
  isRedirect : Bool
  redirectTo : Option String
  error : Option String
deriving DecidableEq, Repr

/-- `LinkValidator.checkLink`: HEAD existence probe. -/
def checkLink (env : JsEnv) (urlString : String) : LinkCheck :=
  match env.parse urlString with
  | .error msg =>
    { url := urlString, statusCode := 0, isOk := false, isRedirect := false,
      redirectTo := none, error := some msg }
  | .ok _ =>
    match env.headEvent urlString with
    | .response sc location =>
      { url := urlString, statusCode := sc,
        isOk := decide (200 ≤ sc) && decide (sc < 400),
        isRedirect := decide (300 ≤ sc) && decide (sc < 400),
        redirectTo := location, error := none }
    | .reqError msg =>
      { url := urlString, statusCode := 0, isOk := false, isRedirect := false,
        redirectTo := none, error := some msg }
    | .timeout =>
      { url := urlString, statusCode := 0, isOk := false, isRedirect := false,
        redirectTo := none, error := some "Timeout" }

/-- A broken-link entry. -/
structure BrokenLink where
  url : String
  foundOn : String
  href : String
  statusCode : Nat
  error : Option String
deriving DecidableEq, Repr

/-- A recorded redirect. -/
structure Redirect where
  fromUrl : String
  toUrl : Option String
  statusCode : Nat
deriving DecidableEq, Repr

/-- The per-page counters and lists accumulated by the link loop. -/
structure ScanCounts where
  totalLinks : Nat
  checkedLinks : Nat
  validLinks : Nat
  brokenLinks : List BrokenLink
  redirects : List Redirect
  skippedExternal : Nat
deriving DecidableEq, Repr

/-- The two result shapes of `validatePageLinks`: a page whose fetch failed
(zero extracted links, the fetch error carried), or a scanned page. -/
inductive PageScan where
  | failed (pageUrl : String) (pageName : Option String) (error : String)
      (links : List Link) (brokenLinks : List BrokenLink)
  | scanned (pageUrl : String) (pageName : Option String) (counts : ScanCounts)
deriving DecidableEq, Repr

def PageScan.pageUrl : PageScan → String
  | .failed u _ _ _ _ => u
  | .scanned u _ _ => u

def PageScan.brokenLinks : PageScan → List BrokenLink
  | .failed _ _ _ _ b => b
  | .scanned _ _ c => c.brokenLinks

def PageScan.skippedExternal : PageScan → Nat
  | .failed _ _ _ _ _ => 0
  | .scanned _ _ c => c.skippedExternal

def PageScan.checkedLinks : PageScan → Nat
  | .failed _ _ _ _ _ => 0
  | .scanned _ _ c => c.checkedLinks

/-- `result.pageName = name`. -/
def PageScan.setName : PageScan → String → PageScan
  | .failed u _ e ls b, n => .failed u (some n) e ls b
  | .scanned u _ c, n => .scanned u (some n) c

/-- The mutable state of the link loop: the instance's `checkedUrls` set,
the per-page counters, and an instrumentation trace (`probed`) recording,
in order, each URL on which `checkLink` is invoked. -/
structure LoopState where
  checkedUrls : List String
  counts : ScanCounts
  probed : List String
deriving Repr

/-- One iteration of `for (const link of uniqueLinks)`. -/
def linkStep (env : JsEnv) (pageUrl : String) (checkExternal : Bool)
    (st : LoopState) (l : Link) : LoopState :=
  if st.checkedUrls.contains l.absoluteUrl then st
  else if l.isExternal && !checkExternal then
    { st with counts :=
        { st.counts with skippedExternal := st.counts.skippedExternal + 1 } }
  else
    let checkedUrls := st.checkedUrls ++ [l.absoluteUrl]
    let c1 := { st.counts with checkedLinks := st.counts.checkedLinks + 1 }
    let r := checkLink env l.absoluteUrl
    let counts :=
      if r.isOk then
        let c2 := { c1 with validLinks := c1.validLinks + 1 }
        if r.isRedirect then
          { c2 with redirects := c2.redirects ++
              [{ fromUrl := l.absoluteUrl, toUrl := r.redirectTo,
                 statusCode := r.statusCode }] }
        else c2
      else
        { c1 with brokenLinks := c1.brokenLinks ++
            [{ url := l.absoluteUrl, foundOn := pageUrl, href := l.href,
               statusCode := r.statusCode, error := r.error }] }
    { checkedUrls := checkedUrls, counts := counts,
      probed := st.probed ++ [l.absoluteUrl] }

/-- The invariant of the link loop, relative to the set `cu0` held when the
page's loop started and the iterated link list `src`: the `checkedUrls` set
is `cu0` extended by exactly the probed URLs, no URL is probed twice, every
probed URL was absent from `cu0` and belongs to a link of `src` that is
non-external (or external probing was requested), and the broken-link URLs
form a sublist of the probe trace. -/
def ProbeInv (cu0 : List String) (src : List Link) (ce : Bool)
    (st : LoopState) : Prop :=
  st.checkedUrls = cu0 ++ st.probed ∧
  st.probed.Nodup ∧
  (∀ v ∈ st.probed, v ∉ cu0 ∧ ∃ l ∈ src,
     l.absoluteUrl = v ∧ (l.isExternal = false ∨ ce = true)) ∧
  List.Sublist (st.counts.brokenLinks.map (fun b => b.url)) st.probed

/-- The deduplicated link list the loop iterates over for a page. -/
def uniqueLinksOf (env : JsEnv) (pageUrl : String) : List Link :=
  dedupByAbsoluteUrl
    (extractLinks env ((fetchPage env pageUrl).body.getD "") pageUrl)

/-- `LinkValidator.validatePageLinks`: fetch the page; on failure return
the error shape with zero links; otherwise extract, dedup and probe.
Returns the page result, the updated `checkedUrls` set and the list of
URLs probed by this call. -/
def validatePageLinks (env : JsEnv) (pageUrl : String) (checkExternal : Bool)
    (checkedUrls : List String) : PageScan × List String × List String :=
  let fr := fetchPage env pageUrl
  if fr.isOk then
    let uniq := uniqueLinksOf env pageUrl
    let st0 : LoopState :=
      { checkedUrls := checkedUrls,
        counts := { totalLinks := uniq.length, checkedLinks := 0,
                    validLinks := 0, brokenLinks := [], redirects := [],
                    skippedExternal := 0 },
        probed := [] }
    let st := uniq.foldl (linkStep env pageUrl checkExternal) st0
    (.scanned pageUrl none st.counts, st.checkedUrls, st.probed)
  else
    (.failed pageUrl none (jsOrStr fr.error ("HTTP " ++ toString fr.statusCode))
       [] [], checkedUrls, [])

/-- A per-site crawl result (`probeTrace` is the instrumentation trace of
all `checkLink` invocations of the crawl, in order). -/
structure SiteRes where
  siteId : String
  siteName : String
  baseUrl : String
  pages : List PageScan
  totalBrokenLinks : Nat
  allBrokenLinks : List BrokenLink
  status : Status
  probeTrace : List String
deriving Repr

/-- The loop over the configured pages of `validateSite`: a page whose
path is exactly `"/"` is skipped; `new URL(page.path, site.url)` is
outside any `try`, so a resolution failure fails the whole call. -/
def scanPages (env : JsEnv) (baseUrl : String) :
    List Page → List String → Option (List PageScan × List String × List String)
  | [], cu => some ([], cu, [])
  | p :: ps, cu =>
    if p.path = "/" then scanPages env baseUrl ps cu
    else
      match env.resolve p.path baseUrl with
      | .error _ => none
      | .ok u =>
        let r := validatePageLinks env u.full false cu
        match scanPages env baseUrl ps r.2.1 with
        | none => none
        | some (rest, cu2, trs) =>
          some ((r.1.setName p.name) :: rest, cu2, r.2.2 ++ trs)

/-- `LinkValidator.validateSite`: clear the `checkedUrls` set, scan the
main page and then every configured page, flatten the broken links.
The incoming set `s0` is discarded by `this.checkedUrls.clear()`. -/
def validateSite (env : JsEnv) (site : Site) (_s0 : List String) :
    Option (SiteRes × List String) :=
  let cu0 : List String := []
  let m := validatePageLinks env site.url false cu0
  match scanPages env site.url site.pages m.2.1 with
  | none => none
  | some (rest, cu2, tr2) =>
    let pages := (m.1.setName "Main") :: rest
    let allBroken := (pages.map PageScan.brokenLinks).flatten
    some ({ siteId := site.id, siteName := site.name, baseUrl := site.url,
            pages := pages, totalBrokenLinks := allBroken.length,
            allBrokenLinks := allBroken,
            status := if allBroken.length = 0 then .ok else .warning,
            probeTrace := m.2.2 ++ tr2 }, cu2)

/-- `LinkValidator.validateMultipleSites`: sequential, the instance's
`checkedUrls` set threading from site to site. -/
def validateMultipleSites (env : JsEnv) :
    List Site → List String → Option (List SiteRes × List String)
  | [], s => some ([], s)
  | site :: rest, s =>
    match validateSite env site s with
    | none => none
    | some (r, s') =>
      match validateMultipleSites env rest s' with
      | none => none
      | some (rs, s'') => some (r :: rs, s'')

/-- The link summary record. -/
structure Summary where
  totalSites : Nat
  sitesWithBrokenLinks : Nat
  totalBrokenLinks : Nat
  brokenLinks : List BrokenLink
  allHealthy : Bool
  details : List SiteRes
deriving Repr

/-- `LinkValidator.generateSummary`. -/
def generateSummary (results : List SiteRes) : Summary :=
  let allBroken := (results.map (fun r => r.allBrokenLinks)).flatten
  { totalSites := results.length,
    sitesWithBrokenLinks :=
      (results.filter (fun r => decide (0 < r.totalBrokenLinks))).length,
    totalBrokenLinks := allBroken.length,
    brokenLinks := allBroken,
    allHealthy := allBroken.length == 0,
    details := results }

/-- The pages of a site crawl started with an empty `checkedUrls` set
(`[]` when the crawl fails on an unresolvable page path). -/
def sitePagesOf (env : JsEnv) (site : Site) : List PageScan :=
  match validateSite env site [] with
  | none => []
  | some rs => rs.1.pages

/-- The probe trace of a site crawl started with an empty set. -/
def siteTraceOf (env : JsEnv) (site : Site) : List String :=
  match validateSite env site [] with
  | none => []
  | some rs => rs.1.probeTrace

/-- The flattened broken-link URLs of a site crawl started with an empty set. -/
def siteBrokenUrlsOf (env : JsEnv) (site : Site) : List String :=
  match validateSite env site [] with
  | none => []
  | some rs => rs.1.allBrokenLinks.map (fun b => b.url)

/-- `path` resolved against `baseUrl` yields a URL different from `target`
(vacuously true when resolution throws). -/
def resolvesAway (env : JsEnv) (baseUrl path target : String) : Bool :=
  match env.resolve path baseUrl with
  | .ok u => u.full != target
  | .error _ => true

end LinkValidator

/-! Specification-side definitions, written from the spec's words, for
comparison against the translated code (refinement checks). -/

/-- From the spec's words: the latency of a probe "measures the complete
transfer — the response body is fully drained before the latency used for
classification is recorded", i.e. the elapsed milliseconds at the moment
the body has been fully drained. -/
def specCompleteTransferTime (env : JsEnv) (urlString : String) : Option Nat :=
  match env.probeEvent urlString with
  | .response _ _ completeElapsed _ => some completeElapsed
  | _ => none

/-- From the spec's words: the latencies of "exactly those pages that
produced a numeric latency" (any present `responseTime`, including `0`). -/
def specNumericTimes (pages : List UptimeMonitor.PageProbe) : List Nat :=
  pages.filterMap (fun p => p.responseTime)

/-- From the spec's words: the rounded arithmetic mean of `responseTime`
over the pages that produced a numeric latency, `none` when there is none. -/
def specAvgResponseTime (pages : List UptimeMonitor.PageProbe) : Option Nat :=
  let ts := specNumericTimes pages
  if 0 < ts.length then some (jsRound ts.sum ts.length) else none

/-- From the claim's words (C6): the six exclusions, asserted to apply to
the extraction of both `href` and `src` references. -/
def claimedExcluded (s : String) : Bool :=
  LinkValidator.hrefExcluded s || LinkValidator.srcExcluded s

/-! A concrete runtime environment used to instantiate the theorems.  Its
URL tables agree with WHATWG `new URL` semantics on every string they map
(in particular `new URL("#f", "http://a.test/")` resolves to
`http://a.test/#f` without throwing). -/

/-- The markup of the demo site's main page: the same `/broken` href twice
and one external href. -/
def demoHtml : String :=
  "<a href='/broken'>x</a><a href='/broken'>y</a><a href='http://other.test/x'>z</a>"

def demoParse : String → Except String RUrl := fun s =>
  if s = "http://demo.test/" then .ok ⟨"http://demo.test/", "demo.test", "http:"⟩
  else if s = "http://demo.test/about" then
    .ok ⟨"http://demo.test/about", "demo.test", "http:"⟩
  else if s = "http://demo.test/broken" then
    .ok ⟨"http://demo.test/broken", "demo.test", "http:"⟩
  else if s = "http://other.test/x" then
    .ok ⟨"http://other.test/x", "other.test", "http:"⟩
  else if s = "https://example.com/" then
    .ok ⟨"https://example.com/", "example.com", "https:"⟩
  else if s = "http://zero.test/" then
    .ok ⟨"http://zero.test/", "zero.test", "http:"⟩
  else if s = "http://a.test/" then .ok ⟨"http://a.test/", "a.test", "http:"⟩
  else if s = "http://a.test/#f" then .ok ⟨"http://a.test/#f", "a.test", "http:"⟩
  else .error "Invalid URL"

def demoResolve : String → String → Except String RUrl := fun t b =>
  if t = "/broken" ∧ b = "http://demo.test/" then
    .ok ⟨"http://demo.test/broken", "demo.test", "http:"⟩
  else if t = "http://other.test/x" ∧ b = "http://demo.test/" then
    .ok ⟨"http://other.test/x", "other.test", "http:"⟩
  else if t = "/" ∧ b = "http://demo.test/" then
    .ok ⟨"http://demo.test/", "demo.test", "http:"⟩
  else if t = "/about" ∧ b = "http://demo.test/" then
    .ok ⟨"http://demo.test/about", "demo.test", "http:"⟩
  else if t = "#f" ∧ b = "http://a.test/" then
    .ok ⟨"http://a.test/#f", "a.test", "http:"⟩
  else .error "Invalid URL"

/-- The concrete environment: a healthy main page whose markup is
`demoHtml`, an `/about` page answering 500, a broken `/broken` target,
a certificate expiring in five days, and a zero-latency site. -/
def demoEnv : JsEnv where
  parse := demoParse
  resolve := demoResolve
  now := 0
  certEvent := fun s =>
    if s = "https://example.com/" then .response (-1000) 432000000 (some true)
    else .reqError "ENOTFOUND"
  probeEvent := fun s =>
    if s = "http://demo.test/" then .response 200 5 100 "aa"
    else if s = "http://demo.test/about" then .response 200 50 60 "bb"
    else if s = "http://zero.test/" then .response 200 0 3 "x"
    else .reqError "ENOTFOUND" 30
  fetchEvent := fun s =>
    if s = "http://demo.test/" then .response 200 demoHtml
    else if s = "http://demo.test/about" then .response 500 ""
    else if s = "http://a.test/" then .response 200 "<img src='#f'>"
    else .reqError "ENOTFOUND"
  headEvent := fun s =>
    if s = "http://demo.test/broken" then .response 404 none
    else .reqError "ENOTFOUND"

/-- The demo site: base URL plus a `"/"` page and an `/about` page. -/
def demoSite : Site :=
  ⟨"s1", "Demo", "http://demo.test/", [⟨"/", "Root"⟩, ⟨"/about", "About"⟩]⟩

/-- A site whose only probe answers within the same millisecond
(`responseTime = 0`). -/
def zeroSite : Site := ⟨"s9", "Zero", "http://zero.test/", []⟩

/-! Claim theorems. -/

/-- C1: whenever `SSLChecker.checkCertificate` successfully reads a peer
certificate, the resulting status is decided with first-match precedence —
critical if `now > notAfter` or `now < notBefore`; else critical if
`daysRemaining ≤ criticalDays`; else warning if
`daysRemaining ≤ warningDays`; else ok, with
`daysRemaining = ⌊(notAfter - now) / 1 day⌋` — and in particular every
certificate with `daysRemaining ≤ criticalDays` is classified critical
regardless of the warning threshold. -/
theorem certificate_status_precedence
    (cfg : SSLChecker.Cfg) (env : JsEnv) (url : String) (u : RUrl)
    (validFrom validTo : Int) (authorized : Option Bool)
    (hp : env.parse url = .ok u) (hh : u.protocol = "https:")
    (hc : env.certEvent url = .response validFrom validTo authorized) :
    ((SSLChecker.checkCertificate cfg env url).status =
       (if env.now > validTo ∨ env.now < validFrom then Status.critical
        else if Int.fdiv (validTo - env.now) msPerDay ≤ cfg.criticalDays then
          Status.critical
        else if Int.fdiv (validTo - env.now) msPerDay ≤ cfg.warningDays then
          Status.warning
        else Status.ok))
    ∧ (Int.fdiv (validTo - env.now) msPerDay ≤ cfg.criticalDays →
       (SSLChecker.checkCertificate cfg env url).status = Status.critical) := by
  have hstat : (SSLChecker.checkCertificate cfg env url).status =
      (if env.now > validTo ∨ env.now < validFrom then Status.critical
       else if Int.fdiv (validTo - env.now) msPerDay ≤ cfg.criticalDays then
         Status.critical
       else if Int.fdiv (validTo - env.now) msPerDay ≤ cfg.warningDays then
         Status.warning
       else Status.ok) := by
    unfold SSLChecker.checkCertificate
    rw [hp, hc]
    by_cases h1 : env.now > validTo ∨ env.now < validFrom
    · have hb : (decide (env.now > validTo) || decide (env.now < validFrom)) = true := by
        rcases h1 with h | h <;> simp [h]
      simp [hh, hb, h1]
    · have ha : ¬ env.now > validTo := fun h => h1 (Or.inl h)
      have ha' : ¬ env.now < validFrom := fun h => h1 (Or.inr h)
      have hb : (decide (env.now > validTo) || decide (env.now < validFrom)) = false := by
        simp [ha, ha']
      simp [hh, hb, h1]
  refine ⟨hstat, fun hcr => ?_⟩
  rw [hstat]
  by_cases h1 : env.now > validTo ∨ env.now < validFrom
  · rw [if_pos h1]
  · rw [if_neg h1, if_pos hcr]

/-- Witness for C1: the spec's concrete scenario — a certificate expiring
five days from now with `criticalDays = 7` is classified critical. -/
theorem certificate_status_precedence_witness :
    demoEnv.parse "https://example.com/" =
        .ok ⟨"https://example.com/", "example.com", "https:"⟩ ∧
    demoEnv.certEvent "https://example.com/" =
        .response (-1000) 432000000 (some true) ∧
    Int.fdiv (432000000 - demoEnv.now) msPerDay ≤ (7 : Int) ∧
    (SSLChecker.checkCertificate ⟨30, 7⟩ demoEnv "https://example.com/").status =
      Status.critical :=
  ⟨rfl, rfl, by decide,
   (certificate_status_precedence ⟨30, 7⟩ demoEnv "https://example.com/"
      ⟨"https://example.com/", "example.com", "https:"⟩ (-1000) 432000000
      (some true) rfl rfl rfl).2 (by decide)⟩

theorem overallStatusOf_ne_error (l : List Status) :
    UptimeMonitor.overallStatusOf l ≠ Status.error := by
  unfold UptimeMonitor.overallStatusOf
  split_ifs <;> decide

theorem overallStatusOf_cons (s : Status) (t : List Status) :
    UptimeMonitor.overallStatusOf (s :: t) =
      statusMax (collapseError s) (UptimeMonitor.overallStatusOf t) := by
  have hne := overallStatusOf_ne_error t
  unfold UptimeMonitor.overallStatusOf at hne ⊢
  cases hd : t.contains Status.down <;> cases he : t.contains Status.error <;>
    cases hc : t.contains Status.critical <;> cases hw : t.contains Status.warning <;>
      cases s <;>
        simp_all [List.contains_cons, statusMax, collapseError, sevRank]

theorem overallStatusOf_eq_worst (l : List Status) :
    UptimeMonitor.overallStatusOf l = worstStatus l := by
  induction l with
  | nil => rfl
  | cons s t ih =>
    rw [overallStatusOf_cons, ih]
    rfl

/-- C2: a probed page is `down` when the request errors, times out or the
status code lies outside `[200, 400)`; otherwise it is classified against
the latency thresholds (`critical`, then `warning`, else `ok`); a request
construction failure is `error`; and the site-level `overallStatus` is the
worst page status under `down > critical > warning > ok`, a page-level
`error` counting as `down`. -/
theorem uptime_classification_and_worst_status :
    (∀ (cfg : UptimeMonitor.Cfg) (env : JsEnv) (url : String) (u : RUrl)
       (sc he ce : Nat) (body : String),
       env.parse url = .ok u → env.probeEvent url = .response sc he ce body →
       (UptimeMonitor.checkSite cfg env url).status =
         (if ¬(200 ≤ sc ∧ sc < 400) then Status.down
          else if cfg.criticalThreshold ≤ he then Status.critical
          else if cfg.warningThreshold ≤ he then Status.warning
          else Status.ok))
    ∧ (∀ (cfg : UptimeMonitor.Cfg) (env : JsEnv) (url : String) (u : RUrl)
        (msg : String) (el : Nat),
        env.parse url = .ok u → env.probeEvent url = .reqError msg el →
        (UptimeMonitor.checkSite cfg env url).status = Status.down)
    ∧ (∀ (cfg : UptimeMonitor.Cfg) (env : JsEnv) (url : String) (u : RUrl)
        (el : Nat),
        env.parse url = .ok u → env.probeEvent url = .timeout el →
        (UptimeMonitor.checkSite cfg env url).status = Status.down)
    ∧ (∀ (cfg : UptimeMonitor.Cfg) (env : JsEnv) (url : String) (msg : String),
        env.parse url = .error msg →
        (UptimeMonitor.checkSite cfg env url).status = Status.error)
    ∧ (∀ (cfg : UptimeMonitor.Cfg) (env : JsEnv) (site : Site),
        (UptimeMonitor.checkSitePages cfg env site).isSome = true →
        UptimeMonitor.uptimeOverallOf cfg env site =
          worstStatus ((UptimeMonitor.uptimePagesOf cfg env site).map
            (fun p => p.status))) := by
  refine ⟨?_, ?_, ?_, ?_, ?_⟩
  · intro cfg env url u sc he ce body hp hev
    unfold UptimeMonitor.checkSite
    rw [hp, hev]
    by_cases hup : 200 ≤ sc ∧ sc < 400
    · have hb : (decide (200 ≤ sc) && decide (sc < 400)) = true := by
        simp [hup.1, hup.2]
      simp only [hb]
      simp [hup]
    · have hb : (decide (200 ≤ sc) && decide (sc < 400)) = false := by
        rcases Decidable.not_and_iff_or_not.mp hup with h | h <;> simp [h]
      simp only [hb]
      simp [hup]
  · intro cfg env url u msg el hp hev
    simp [UptimeMonitor.checkSite, hp, hev]
  · intro cfg env url u el hp hev
    simp [UptimeMonitor.checkSite, hp, hev]
  · intro cfg env url msg hp
    simp [UptimeMonitor.checkSite, hp]
  · intro cfg env site hsome
    unfold UptimeMonitor.uptimeOverallOf UptimeMonitor.uptimePagesOf
    unfold UptimeMonitor.checkSitePages at hsome ⊢
    cases hm : UptimeMonitor.probePages cfg env site.url site.pages with
    | none => rw [hm] at hsome; simp at hsome
    | some rest =>
      dsimp only
      exact overallStatusOf_eq_worst _

/-- Witness for C2: the demo site's healthy main page is classified by the
status-code and latency chain, and the demo site's overall status is the
worst of its page statuses. -/
theorem uptime_classification_witness :
    demoEnv.parse "http://demo.test/" =
        .ok ⟨"http://demo.test/", "demo.test", "http:"⟩ ∧
    demoEnv.probeEvent "http://demo.test/" = .response 200 5 100 "aa" ∧
    (UptimeMonitor.checkSite ⟨2000, 5000⟩ demoEnv "http://demo.test/").status =
      (if ¬(200 ≤ 200 ∧ 200 < 400) then Status.down
       else if 5000 ≤ 5 then Status.critical
       else if 2000 ≤ 5 then Status.warning
       else Status.ok) ∧
    (UptimeMonitor.checkSitePages ⟨2000, 5000⟩ demoEnv demoSite).isSome = true ∧
    UptimeMonitor.uptimeOverallOf ⟨2000, 5000⟩ demoEnv demoSite =
      worstStatus ((UptimeMonitor.uptimePagesOf ⟨2000, 5000⟩ demoEnv demoSite).map
        (fun p => p.status)) :=
  ⟨rfl, rfl,
   uptime_classification_and_worst_status.1 ⟨2000, 5000⟩ demoEnv
     "http://demo.test/" ⟨"http://demo.test/", "demo.test", "http:"⟩
     200 5 100 "aa" rfl rfl,
   by decide,
   uptime_classification_and_worst_status.2.2.2.2 ⟨2000, 5000⟩ demoEnv demoSite
     (by decide)⟩

/-- C3: the SSL summary is healthy iff no result is invalid and none has
status `critical` or `error`; the uptime summary is healthy iff no site's
`overallStatus` is `down` or `error`; the link summary is healthy iff the
total broken-link count across all sites is zero. -/
theorem summaries_allHealthy_iff :
    (∀ (rs : List SSLChecker.SSLResult),
       (SSLChecker.generateSummary rs).allHealthy = true ↔
         ∀ r ∈ rs, r.valid = true ∧ r.status ≠ Status.critical ∧
           r.status ≠ Status.error)
    ∧ (∀ (us : List UptimeMonitor.SiteProbe),
       (UptimeMonitor.generateSummary us).allHealthy = true ↔
         ∀ r ∈ us, r.overallStatus ≠ Status.down ∧
           r.overallStatus ≠ Status.error)
    ∧ (∀ (ls : List LinkValidator.SiteRes),
       (LinkValidator.generateSummary ls).allHealthy = true ↔
         (ls.map (fun r => r.allBrokenLinks.length)).sum = 0) := by
  refine ⟨?_, ?_, ?_⟩
  · intro rs
    simp only [SSLChecker.generateSummary, Bool.and_eq_true, beq_iff_eq,
      List.length_eq_zero, List.filter_eq_nil_iff]
    constructor
    · rintro ⟨⟨h1, h2⟩, h3⟩ r hr
      refine ⟨?_, ?_, ?_⟩
      · have := h1 r hr; simpa using this
      · have := h2 r hr; simpa using this
      · have := h3 r hr; simpa using this
    · intro h
      refine ⟨⟨?_, ?_⟩, ?_⟩ <;> intro r hr <;> simp [(h r hr).1, (h r hr).2.1, (h r hr).2.2]
  · intro us
    simp only [UptimeMonitor.generateSummary, beq_iff_eq,
      List.length_eq_zero, List.filter_eq_nil_iff]
    constructor
    · intro h r hr
      have := h r hr
      simp only [Bool.or_eq_true, beq_iff_eq] at this
      push_neg at this
      exact this
    · intro h r hr
      simp [(h r hr).1, (h r hr).2]
  · intro ls
    simp only [LinkValidator.generateSummary, beq_iff_eq,
      List.length_flatten, List.map_map]
    constructor
    · intro h; simpa [Function.comp] using h
    · intro h; simpa [Function.comp] using h

/-- Witness for C3: concrete summaries — a healthy certificate, a slow but
reachable site, and a site whose crawl found no broken links — all roll up
to `allHealthy = true`. -/
theorem summaries_allHealthy_witness :
    (SSLChecker.generateSummary
       [⟨"https://example.com/", some "example.com", true, some 40, some false,
         Status.ok, none⟩]).allHealthy = true ∧
    (UptimeMonitor.generateSummary
       [⟨"s1", "Demo", "http://demo.test/", [], Status.warning,
         some 2500⟩]).allHealthy = true ∧
    (LinkValidator.generateSummary
       [⟨"s1", "Demo", "http://demo.test/", [], 0, [], Status.ok,
         []⟩]).allHealthy = true :=
  ⟨(summaries_allHealthy_iff.1 _).mpr (by decide),
   (summaries_allHealthy_iff.2.1 _).mpr (by decide),
   (summaries_allHealthy_iff.2.2 _).mpr (by decide)⟩

/-- C7: when a page's fetch fails (network error, timeout, or a status code
outside `[200, 400)`), the per-page result is the failure shape: zero
extracted links, an empty broken-link list, and the page-level fetch error
(`error.message`, or `HTTP <status>` for a bad status code) — distinguishable
from a successful scan that found no broken links. -/
theorem failed_page_fetch_result
    (env : JsEnv) (pageUrl : String) (ce : Bool) (cu : List String)
    (h : (LinkValidator.fetchPage env pageUrl).isOk = false) :
    LinkValidator.validatePageLinks env pageUrl ce cu =
      (.failed pageUrl none
         (jsOrStr (LinkValidator.fetchPage env pageUrl).error
           ("HTTP " ++ toString (LinkValidator.fetchPage env pageUrl).statusCode))
         [] [],
       cu, []) := by
  unfold LinkValidator.validatePageLinks
  rw [if_neg (by simp [h])]

/-- Witness for C7: the demo `/about` page answers 500; its crawl result is
the failure shape carrying `HTTP 500` with zero links. -/
theorem failed_page_fetch_result_witness :
    (LinkValidator.fetchPage demoEnv "http://demo.test/about").isOk = false ∧
    LinkValidator.validatePageLinks demoEnv "http://demo.test/about" false [] =
      (.failed "http://demo.test/about" none "HTTP 500" [] [], [], []) := by
  refine ⟨by decide, ?_⟩
  rw [failed_page_fetch_result demoEnv "http://demo.test/about" false []
    (by decide)]
  decide

/-- C8 (amended): the recorded elapsed-milliseconds value of a responding
probe is the elapsed time at the moment the response (headers) arrives —
captured before the body is drained — while the body is still fully read
and its length recorded alongside the status code. -/
theorem probe_latency_and_body_recording
    (cfg : UptimeMonitor.Cfg) (env : JsEnv) (url : String) (u : RUrl)
    (sc he ce : Nat) (body : String)
    (hp : env.parse url = .ok u)
    (hev : env.probeEvent url = .response sc he ce body) :
    (UptimeMonitor.checkSite cfg env url).responseTime = some he ∧
    (UptimeMonitor.checkSite cfg env url).contentLength = some body.length ∧
    (UptimeMonitor.checkSite cfg env url).statusCode = some sc := by
  refine ⟨?_, ?_, ?_⟩ <;> simp [UptimeMonitor.checkSite, hp, hev]

/-- Counterexample for C8 as stated: on the demo main page the headers
arrive at 5 ms and the body completes at 100 ms; the recorded latency is
5 ms, not the complete-transfer elapsed time. -/
theorem probe_latency_counterexample :
    (UptimeMonitor.checkSite ⟨2000, 5000⟩ demoEnv "http://demo.test/").responseTime =
      some 5 ∧
    specCompleteTransferTime demoEnv "http://demo.test/" = some 100 ∧
    (UptimeMonitor.checkSite ⟨2000, 5000⟩ demoEnv "http://demo.test/").responseTime ≠
      specCompleteTransferTime demoEnv "http://demo.test/" := by
  decide

/-- Witness for C8's amended theorem at the demo main page. -/
theorem probe_latency_and_body_recording_witness :
    (UptimeMonitor.checkSite ⟨2000, 5000⟩ demoEnv "http://demo.test/").responseTime =
      some 5 ∧
    (UptimeMonitor.checkSite ⟨2000, 5000⟩ demoEnv "http://demo.test/").contentLength =
      some 2 ∧
    (UptimeMonitor.checkSite ⟨2000, 5000⟩ demoEnv "http://demo.test/").statusCode =
      some 200 :=
  probe_latency_and_body_recording ⟨2000, 5000⟩ demoEnv "http://demo.test/"
    ⟨"http://demo.test/", "demo.test", "http:"⟩ 200 5 100 "aa" rfl rfl

/-- C9 (amended): `avgResponseTime` is the rounded arithmetic mean of
`responseTime` over the pages whose `responseTime` is present *and nonzero*
(JS truthiness: a hard failure that never connected has no latency, but a
0 ms latency is also dropped), and it is `null` exactly when that set of
pages is empty. -/
theorem avg_latency_truthy_filter :
    (∀ (cfg : UptimeMonitor.Cfg) (env : JsEnv) (site : Site),
       (UptimeMonitor.checkSitePages cfg env site).isSome = true →
       UptimeMonitor.uptimeAvgOf cfg env site =
         UptimeMonitor.avgResponseTimeOf (UptimeMonitor.uptimePagesOf cfg env site))
    ∧ (∀ (pages : List UptimeMonitor.PageProbe),
        UptimeMonitor.avgResponseTimeOf pages =
          (let ts := (pages.filter (fun p => jsTruthyNat p.responseTime)).filterMap
            (fun p => p.responseTime)
           if 0 < ts.length then some (jsRound ts.sum ts.length) else none))
    ∧ (∀ (pages : List UptimeMonitor.PageProbe),
        UptimeMonitor.avgResponseTimeOf pages = none ↔
          (pages.filter (fun p => jsTruthyNat p.responseTime)).filterMap
            (fun p => p.responseTime) = []) := by
  refine ⟨?_, ?_, ?_⟩
  · intro cfg env site hsome
    unfold UptimeMonitor.uptimeAvgOf UptimeMonitor.uptimePagesOf
    unfold UptimeMonitor.checkSitePages at hsome ⊢
    cases hm : UptimeMonitor.probePages cfg env site.url site.pages with
    | none => rw [hm] at hsome; simp at hsome
    | some rest => dsimp only
  · intro pages; rfl
  · intro pages
    unfold UptimeMonitor.avgResponseTimeOf
    constructor
    · intro h
      by_cases hl : 0 < ((pages.filter (fun p => jsTruthyNat p.responseTime)).filterMap
          (fun p => p.responseTime)).length
      · rw [if_pos hl] at h; exact absurd h (by simp)
      · exact List.length_eq_zero.mp (by omega)
    · intro h; rw [if_neg (by simp [h])]

/-- Counterexample for C9 as stated: the zero-latency site's only page
produced the numeric latency `0`, so the claimed mean is `0`, but the code
records `avgResponseTime = null`. -/
theorem avg_latency_counterexample :
    UptimeMonitor.uptimeAvgOf ⟨2000, 5000⟩ demoEnv zeroSite = none ∧
    specAvgResponseTime (UptimeMonitor.uptimePagesOf ⟨2000, 5000⟩ demoEnv zeroSite) =
      some 0 ∧
    UptimeMonitor.uptimeAvgOf ⟨2000, 5000⟩ demoEnv zeroSite ≠
      specAvgResponseTime (UptimeMonitor.uptimePagesOf ⟨2000, 5000⟩ demoEnv zeroSite) := by
  decide

/-- Witness for C9's amended theorem at the demo site (latencies 5, 5 and
50 ms across the three probed pages, mean 20 ms). -/
theorem avg_latency_truthy_filter_witness :
    (UptimeMonitor.checkSitePages ⟨2000, 5000⟩ demoEnv demoSite).isSome = true ∧
    UptimeMonitor.uptimeAvgOf ⟨2000, 5000⟩ demoEnv demoSite =
      UptimeMonitor.avgResponseTimeOf
        (UptimeMonitor.uptimePagesOf ⟨2000, 5000⟩ demoEnv demoSite) ∧
    UptimeMonitor.uptimeAvgOf ⟨2000, 5000⟩ demoEnv demoSite = some 20 :=
  ⟨by decide,
   avg_latency_truthy_filter.1 ⟨2000, 5000⟩ demoEnv demoSite (by decide),
   by decide⟩

namespace LinkValidator

theorem setName_pageUrl (s : PageScan) (n : String) :
    (s.setName n).pageUrl = s.pageUrl := by
  cases s <;> rfl

theorem setName_brokenLinks (s : PageScan) (n : String) :
    (s.setName n).brokenLinks = s.brokenLinks := by
  cases s <;> rfl

theorem validatePageLinks_pageUrl (env : JsEnv) (pageUrl : String) (ce : Bool)
    (cu : List String) :
    (validatePageLinks env pageUrl ce cu).1.pageUrl = pageUrl := by
  unfold validatePageLinks
  dsimp only
  split <;> rfl

theorem foldl_upsert_keyed (links : List Link) :
    ∀ (m : List (String × Link)),
      (m.map Prod.fst).Nodup → (∀ p ∈ m, p.2.absoluteUrl = p.1) →
      ((links.foldl (fun m l => upsert m l.absoluteUrl l) m).map Prod.fst).Nodup ∧
      (∀ p ∈ links.foldl (fun m l => upsert m l.absoluteUrl l) m,
        p.2.absoluteUrl = p.1) := by
  induction links with
  | nil => intro m h1 h2; exact ⟨h1, h2⟩
  | cons a t ih =>
    intro m h1 h2
    rw [List.foldl_cons]
    apply ih
    · unfold upsert
      split
      case isTrue hany =>
        have hkeys : (m.map (fun p =>
            if p.1 = a.absoluteUrl then (a.absoluteUrl, a) else p)).map Prod.fst =
            m.map Prod.fst := by
          rw [List.map_map]
          apply List.map_congr_left
          intro p _
          by_cases hpk : p.1 = a.absoluteUrl
          · simp [hpk]
          · simp [hpk]
        rw [hkeys]; exact h1
      case isFalse hnone =>
        rw [List.map_append]
        rw [List.nodup_append]
        refine ⟨h1, by simp, ?_⟩
        intro x hx hx2
        simp at hx2
        subst hx2
        rw [List.mem_map] at hx
        obtain ⟨p, hp, hpx⟩ := hx
        apply hnone
        rw [List.any_eq_true]
        refine ⟨p, hp, ?_⟩
        rw [hpx]
        simp
    · intro p hp
      unfold upsert at hp
      split at hp
      · rw [List.mem_map] at hp
        obtain ⟨q, hq, rfl⟩ := hp
        by_cases hqk : q.1 = a.absoluteUrl
        · simp [hqk]
        · simp [hqk]; exact h2 q hq
      · rcases List.mem_append.mp hp with h | h
        · exact h2 p h
        · simp at h; subst h; rfl

theorem dedup_urls_nodup (links : List Link) :
    ((dedupByAbsoluteUrl links).map (fun l => l.absoluteUrl)).Nodup := by
  obtain ⟨h1, h2⟩ := foldl_upsert_keyed links [] (by simp) (by simp)
  unfold dedupByAbsoluteUrl
  have hcomp : ((links.foldl (fun m l => upsert m l.absoluteUrl l) []).map
      (fun p => p.2)).map (fun l => l.absoluteUrl) =
      (links.foldl (fun m l => upsert m l.absoluteUrl l) []).map Prod.fst := by
    rw [List.map_map]
    apply List.map_congr_left
    intro p hp
    simpa using h2 p hp
  rw [hcomp]; exact h1

theorem linkStep_probeInv (cu0 : List String) (src : List Link) (ce : Bool)
    (env : JsEnv) (pageUrl : String) (l : Link) (hl : l ∈ src)
    (st : LoopState) (h : ProbeInv cu0 src ce st) :
    ProbeInv cu0 src ce (linkStep env pageUrl ce st l) := by
  obtain ⟨hcu, hnd, hmem, hsub⟩ := h
  by_cases h1 : st.checkedUrls.contains l.absoluteUrl = true
  · unfold ProbeInv linkStep
    rw [if_pos h1]
    exact ⟨hcu, hnd, hmem, hsub⟩
  · rw [Bool.not_eq_true] at h1
    have hnotin : l.absoluteUrl ∉ st.checkedUrls := by
      intro hx; simp [hx] at h1
    by_cases h2 : (l.isExternal && !ce) = true
    · unfold ProbeInv linkStep
      rw [if_neg (by simpa using hnotin), if_pos h2]
      exact ⟨hcu, hnd, hmem, hsub⟩
    · rw [Bool.not_eq_true] at h2
      have hor : l.isExternal = false ∨ ce = true := by
        cases hext : l.isExternal
        · exact Or.inl rfl
        · cases hce : ce
          · rw [hext, hce] at h2; simp at h2
          · exact Or.inr rfl
      have hnotpr : l.absoluteUrl ∉ st.probed := fun hx =>
        hnotin (by rw [hcu]; exact List.mem_append_right _ hx)
      have hnot0 : l.absoluteUrl ∉ cu0 := fun hx =>
        hnotin (by rw [hcu]; exact List.mem_append_left _ hx)
      unfold ProbeInv linkStep
      rw [if_neg (by simpa using hnotin), if_neg (by simp [h2])]
      dsimp only
      refine ⟨?_, ?_, ?_, ?_⟩
      · rw [hcu, List.append_assoc]
      · rw [List.nodup_append]
        refine ⟨hnd, by simp, ?_⟩
        intro x hx hx2
        simp at hx2
        subst hx2
        exact hnotpr hx
      · intro v hv
        rcases List.mem_append.mp hv with h | h
        · exact hmem v h
        · simp at h
          subst h
          exact ⟨hnot0, l, hl, rfl, hor⟩
      · by_cases h3 : (checkLink env l.absoluteUrl).isOk = true
        · rw [if_pos h3]
          by_cases h4 : (checkLink env l.absoluteUrl).isRedirect = true
          · rw [if_pos h4]
            exact hsub.trans (List.sublist_append_left _ _)
          · rw [if_neg h4]
            exact hsub.trans (List.sublist_append_left _ _)
        · rw [if_neg h3]
          dsimp only
          rw [List.map_append]
          exact List.Sublist.append hsub (by simp)

theorem foldl_probeInv (env : JsEnv) (pageUrl : String)
    (cu0 : List String) (src : List Link) (ce : Bool) :
    ∀ (links : List Link) (st : LoopState), (∀ l ∈ links, l ∈ src) →
      ProbeInv cu0 src ce st →
      ProbeInv cu0 src ce (links.foldl (linkStep env pageUrl ce) st) := by
  intro links
  induction links with
  | nil => intro st _ h; exact h
  | cons a t ih =>
    intro st hsrc h
    rw [List.foldl_cons]
    exact ih _ (fun l hl => hsrc l (List.mem_cons_of_mem a hl))
      (linkStep_probeInv cu0 src ce env pageUrl a (hsrc a (List.mem_cons_self a t)) st h)

theorem validatePageLinks_delta (env : JsEnv) (pageUrl : String) (ce : Bool)
    (cu : List String) :
    (validatePageLinks env pageUrl ce cu).2.1 =
        cu ++ (validatePageLinks env pageUrl ce cu).2.2 ∧
    (validatePageLinks env pageUrl ce cu).2.2.Nodup ∧
    (∀ v ∈ (validatePageLinks env pageUrl ce cu).2.2,
       v ∉ cu ∧ ∃ l ∈ uniqueLinksOf env pageUrl,
         l.absoluteUrl = v ∧ (l.isExternal = false ∨ ce = true)) ∧
    List.Sublist
      ((validatePageLinks env pageUrl ce cu).1.brokenLinks.map (fun b => b.url))
      (validatePageLinks env pageUrl ce cu).2.2 := by
  by_cases hok : (fetchPage env pageUrl).isOk = true
  · have h := foldl_probeInv env pageUrl cu (uniqueLinksOf env pageUrl) ce
      (uniqueLinksOf env pageUrl)
      { checkedUrls := cu,
        counts := { totalLinks := (uniqueLinksOf env pageUrl).length,
                    checkedLinks := 0, validLinks := 0, brokenLinks := [],
                    redirects := [], skippedExternal := 0 },
        probed := [] }
      (fun _ h => h)
      ⟨by simp, by simp, by simp, by simp⟩
    obtain ⟨hcu, hnd, hmem, hsub⟩ := h
    unfold validatePageLinks
    dsimp only
    rw [if_pos hok]
    exact ⟨hcu, hnd, hmem, hsub⟩
  · rw [Bool.not_eq_true] at hok
    unfold validatePageLinks
    dsimp only
    rw [if_neg (by simp [hok])]
    exact ⟨by simp, by simp, by simp, by simp [PageScan.brokenLinks]⟩

theorem scanPages_delta (env : JsEnv) (baseUrl : String) :
    ∀ (ps : List Page) (cu : List String) (rest : List PageScan)
      (cu2 tr : List String),
      scanPages env baseUrl ps cu = some (rest, cu2, tr) →
      cu2 = cu ++ tr ∧ tr.Nodup ∧
      (∀ v ∈ tr, v ∉ cu ∧ ∃ s ∈ rest, ∃ l ∈ uniqueLinksOf env s.pageUrl,
         l.absoluteUrl = v ∧ l.isExternal = false) ∧
      List.Sublist (((rest.map PageScan.brokenLinks).flatten).map (fun b => b.url))
        tr := by
  intro ps
  induction ps with
  | nil =>
    intro cu rest cu2 tr h
    simp only [scanPages, Option.some.injEq, Prod.mk.injEq] at h
    obtain ⟨h1, h2, h3⟩ := h
    subst h1; subst h2; subst h3
    exact ⟨by simp, by simp, by simp, by simp⟩
  | cons p ps ih =>
    intro cu rest cu2 tr h
    by_cases hroot : p.path = "/"
    · rw [scanPages, if_pos hroot] at h
      exact ih cu rest cu2 tr h
    · rw [scanPages, if_neg hroot] at h
      cases hres : env.resolve p.path baseUrl with
      | error e => rw [hres] at h; simp at h
      | ok u =>
        rw [hres] at h
        dsimp only at h
        cases hsp : scanPages env baseUrl ps
            (validatePageLinks env u.full false cu).2.1 with
        | none => rw [hsp] at h; simp at h
        | some t3 =>
          obtain ⟨rest1, cu21, trs⟩ := t3
          rw [hsp] at h
          simp only [Option.some.injEq, Prod.mk.injEq] at h
          obtain ⟨h1, h2, h3⟩ := h
          subst h1; subst h2; subst h3
          obtain ⟨d1, d2, d3, d4⟩ := validatePageLinks_delta env u.full false cu
          obtain ⟨i1, i2, i3, i4⟩ := ih _ rest1 cu21 trs hsp
          have hsubcu : ∀ x ∈ (validatePageLinks env u.full false cu).2.2,
              x ∈ (validatePageLinks env u.full false cu).2.1 := by
            intro x hx; rw [d1]; exact List.mem_append_right _ hx
          refine ⟨?_, ?_, ?_, ?_⟩
          · rw [i1, d1, List.append_assoc]
          · rw [List.nodup_append]
            refine ⟨d2, i2, ?_⟩
            intro x hx hx2
            exact (i3 x hx2).1 (hsubcu x hx)
          · intro v hv
            rcases List.mem_append.mp hv with hv1 | hv2
            · obtain ⟨hnc, l, hlmem, hlurl, hlext⟩ := d3 v hv1
              refine ⟨hnc, (validatePageLinks env u.full false cu).1.setName p.name,
                List.mem_cons_self _ _, l, ?_, hlurl, ?_⟩
              · rw [setName_pageUrl, validatePageLinks_pageUrl]
                exact hlmem
              · rcases hlext with h | h
                · exact h
                · exact absurd h (by simp)
            · obtain ⟨hnc, s, hs, l, hlmem, hlurl, hlext⟩ := i3 v hv2
              refine ⟨?_, s, List.mem_cons_of_mem _ hs, l, hlmem, hlurl, hlext⟩
              intro hvcu
              exact hnc (by rw [d1]; exact List.mem_append_left _ hvcu)
          · simp only [List.map_cons, List.flatten_cons, List.map_append]
            rw [setName_brokenLinks]
            exact List.Sublist.append d4 i4

theorem validateSite_delta (env : JsEnv) (site : Site) (s0 : List String)
    (rs : SiteRes × List String) (h : validateSite env site s0 = some rs) :
    rs.1.probeTrace.Nodup ∧
    List.Sublist (rs.1.allBrokenLinks.map (fun b => b.url)) rs.1.probeTrace ∧
    (∀ v ∈ rs.1.probeTrace, ∃ s ∈ rs.1.pages,
       ∃ l ∈ uniqueLinksOf env s.pageUrl,
         l.absoluteUrl = v ∧ l.isExternal = false) := by
  unfold validateSite at h
  dsimp only at h
  cases hsp : scanPages env site.url site.pages
      (validatePageLinks env site.url false []).2.1 with
  | none => rw [hsp] at h; simp at h
  | some t3 =>
    obtain ⟨rest, cu2, tr2⟩ := t3
    rw [hsp] at h
    simp only [Option.some.injEq] at h
    subst h
    obtain ⟨d1, d2, d3, d4⟩ := validatePageLinks_delta env site.url false []
    obtain ⟨i1, i2, i3, i4⟩ := scanPages_delta env site.url site.pages _ rest cu2 tr2 hsp
    have hd1' : (validatePageLinks env site.url false []).2.1 =
        (validatePageLinks env site.url false []).2.2 := by
      rw [d1]; simp
    refine ⟨?_, ?_, ?_⟩
    · show ((validatePageLinks env site.url false []).2.2 ++ tr2).Nodup
      rw [List.nodup_append]
      refine ⟨d2, i2, ?_⟩
      intro x hx hx2
      exact (i3 x hx2).1 (by rw [hd1']; exact hx)
    · show List.Sublist _ ((validatePageLinks env site.url false []).2.2 ++ tr2)
      simp only [List.map_cons, List.flatten_cons, List.map_append]
      rw [setName_brokenLinks]
      exact List.Sublist.append d4 i4
    · intro v hv
      rcases List.mem_append.mp hv with hv1 | hv2
      · obtain ⟨hnc, l, hlmem, hlurl, hlext⟩ := d3 v hv1
        refine ⟨(validatePageLinks env site.url false []).1.setName "Main",
          List.mem_cons_self _ _, l, ?_, hlurl, ?_⟩
        · rw [setName_pageUrl, validatePageLinks_pageUrl]
          exact hlmem
        · rcases hlext with h | h
          · exact h
          · exact absurd h (by simp)
      · obtain ⟨hnc, s, hs, l, hlmem, hlurl, hlext⟩ := i3 v hv2
        exact ⟨s, List.mem_cons_of_mem _ hs, l, hlmem, hlurl, hlext⟩

theorem foldl_probed_mono (env : JsEnv) (pageUrl : String) (ce : Bool) :
    ∀ (links : List Link) (st : LoopState) (v : String),
      v ∈ st.probed → v ∈ (links.foldl (linkStep env pageUrl ce) st).probed := by
  intro links
  induction links with
  | nil => intro st v hv; exact hv
  | cons a t ih =>
    intro st v hv
    rw [List.foldl_cons]
    apply ih
    unfold linkStep
    by_cases h1 : st.checkedUrls.contains a.absoluteUrl = true
    · rw [if_pos h1]; exact hv
    · rw [if_neg h1]
      by_cases h2 : (a.isExternal && !ce) = true
      · rw [if_pos h2]; exact hv
      · rw [if_neg h2]; exact List.mem_append_left _ hv

theorem linkStep_cu_sub (env : JsEnv) (pageUrl : String) (ce : Bool)
    (st : LoopState) (a : Link) :
    ∀ v ∈ (linkStep env pageUrl ce st a).checkedUrls,
      v ∈ st.checkedUrls ∨ v = a.absoluteUrl := by
  intro v hv
  unfold linkStep at hv
  by_cases h1 : st.checkedUrls.contains a.absoluteUrl = true
  · rw [if_pos h1] at hv; exact Or.inl hv
  · rw [if_neg h1] at hv
    by_cases h2 : (a.isExternal && !ce) = true
    · rw [if_pos h2] at hv; exact Or.inl hv
    · rw [if_neg h2] at hv
      rcases List.mem_append.mp hv with h | h
      · exact Or.inl h
      · simp at h; exact Or.inr h

theorem foldl_mem_probed (env : JsEnv) (pageUrl : String) (ce : Bool) :
    ∀ (links : List Link) (st : LoopState) (l : Link),
      List.Pairwise (fun x y => x.absoluteUrl ≠ y.absoluteUrl) links →
      l ∈ links → (l.isExternal = false ∨ ce = true) →
      l.absoluteUrl ∉ st.checkedUrls →
      l.absoluteUrl ∈ (links.foldl (linkStep env pageUrl ce) st).probed := by
  intro links
  induction links with
  | nil => intro st l _ h; simp at h
  | cons a t ih =>
    intro st l hpw hl hor hni
    rw [List.foldl_cons]
    rcases List.mem_cons.mp hl with rfl | hlt
    · have hnc : ¬ st.checkedUrls.contains l.absoluteUrl = true := by
        simpa using hni
      have hb2 : (l.isExternal && !ce) = false := by
        rcases hor with h | h <;> simp [h]
      apply foldl_probed_mono
      show l.absoluteUrl ∈ (linkStep env pageUrl ce st l).probed
      unfold linkStep
      rw [if_neg hnc, if_neg (by simp [hb2])]
      exact List.mem_append_right _ (by simp)
    · apply ih _ l hpw.of_cons hlt hor
      intro hx
      rcases linkStep_cu_sub env pageUrl ce st a _ hx with h | h
      · exact hni h
      · exact (List.pairwise_cons.mp hpw).1 l hlt h.symm

theorem uniq_pairwise (env : JsEnv) (pageUrl : String) :
    List.Pairwise (fun x y => x.absoluteUrl ≠ y.absoluteUrl)
      (uniqueLinksOf env pageUrl) := by
  have h : ((uniqueLinksOf env pageUrl).map (fun l => l.absoluteUrl)).Nodup := by
    unfold uniqueLinksOf
    exact dedup_urls_nodup _
  exact List.pairwise_map.mp h

theorem foldl_skipped (env : JsEnv) (pageUrl : String) :
    ∀ (links : List Link) (st : LoopState),
      (∀ a ∈ links, a.isExternal = true → a.absoluteUrl ∉ st.checkedUrls) →
      (∀ a ∈ links, ∀ b ∈ links, a.isExternal = true → b.isExternal = false →
         a.absoluteUrl ≠ b.absoluteUrl) →
      (links.foldl (linkStep env pageUrl false) st).counts.skippedExternal =
        st.counts.skippedExternal +
          (links.filter (fun l => l.isExternal)).length := by
  intro links
  induction links with
  | nil => intro st _ _; simp
  | cons a t ih =>
    intro st hext hpair
    rw [List.foldl_cons]
    cases hea : a.isExternal with
    | true =>
      have hnotin : a.absoluteUrl ∉ st.checkedUrls :=
        hext a (List.mem_cons_self a t) hea
      have hstep : linkStep env pageUrl false st a =
          { st with counts :=
              { st.counts with
                  skippedExternal := st.counts.skippedExternal + 1 } } := by
        unfold linkStep
        rw [if_neg (by simpa using hnotin), if_pos (by simp [hea])]
      have hih := ih (linkStep env pageUrl false st a)
        (fun b hb hbe => by
          rw [hstep]
          exact hext b (List.mem_cons_of_mem a hb) hbe)
        (fun x hx y hy hxe hye =>
          hpair x (List.mem_cons_of_mem a hx) y (List.mem_cons_of_mem a hy) hxe hye)
      rw [hih, hstep]
      simp only [List.filter_cons, hea, if_true, List.length_cons]
      omega
    | false =>
      by_cases hin : st.checkedUrls.contains a.absoluteUrl = true
      · have hstep : linkStep env pageUrl false st a = st := by
          unfold linkStep
          rw [if_pos hin]
        have hih := ih (linkStep env pageUrl false st a)
          (fun b hb hbe => by
            rw [hstep]
            exact hext b (List.mem_cons_of_mem a hb) hbe)
          (fun x hx y hy hxe hye =>
            hpair x (List.mem_cons_of_mem a hx) y (List.mem_cons_of_mem a hy) hxe hye)
        rw [hih, hstep]
        simp [List.filter_cons, hea]
      · have hcu1 : (linkStep env pageUrl false st a).checkedUrls =
            st.checkedUrls ++ [a.absoluteUrl] := by
          unfold linkStep
          rw [if_neg hin, if_neg (by simp [hea])]
        have hsk1 : (linkStep env pageUrl false st a).counts.skippedExternal =
            st.counts.skippedExternal := by
          unfold linkStep
          rw [if_neg hin, if_neg (by simp [hea])]
          dsimp only
          by_cases h3 : (checkLink env a.absoluteUrl).isOk = true
          · rw [if_pos h3]
            by_cases h4 : (checkLink env a.absoluteUrl).isRedirect = true
            · rw [if_pos h4]
            · rw [if_neg h4]
          · rw [if_neg h3]
        have hIH1 : ∀ b ∈ t, b.isExternal = true →
            b.absoluteUrl ∉ (linkStep env pageUrl false st a).checkedUrls := by
          intro b hb hbe
          rw [hcu1]
          intro hbx
          rcases List.mem_append.mp hbx with hmem1 | hmem2
          · exact hext b (List.mem_cons_of_mem a hb) hbe hmem1
          · simp at hmem2
            exact hpair b (List.mem_cons_of_mem a hb) a (List.mem_cons_self a t)
              hbe hea hmem2
        have hIH2 : ∀ x ∈ t, ∀ y ∈ t, x.isExternal = true → y.isExternal = false →
            x.absoluteUrl ≠ y.absoluteUrl := fun x hx y hy hxe hye =>
          hpair x (List.mem_cons_of_mem a hx) y (List.mem_cons_of_mem a hy) hxe hye
        rw [ih (linkStep env pageUrl false st a) hIH1 hIH2, hsk1]
        simp [List.filter_cons, hea]

end LinkValidator

/-- C4: extracted references are deduplicated by absolute URL within one
site crawl — the dedup map has pairwise-distinct URLs, the per-site probe
trace never repeats a URL (so a page with two identical hrefs probes the
target once), at most one `BrokenLinkEntry` exists per URL, an in-scope
not-yet-checked link really is probed, and the `checkedUrls` set is cleared
at the start of each site's crawl, making each site's result independent of
any earlier site's set. -/
theorem site_crawl_dedup :
    (∀ (env : JsEnv) (site : Site) (s s' : List String),
       LinkValidator.validateSite env site s =
         LinkValidator.validateSite env site s')
    ∧ (∀ (links : List LinkValidator.Link),
        ((LinkValidator.dedupByAbsoluteUrl links).map
          (fun l => l.absoluteUrl)).Nodup)
    ∧ (∀ (env : JsEnv) (site : Site), (LinkValidator.siteTraceOf env site).Nodup)
    ∧ (∀ (env : JsEnv) (site : Site),
        (LinkValidator.siteBrokenUrlsOf env site).Nodup)
    ∧ (∀ (env : JsEnv) (pageUrl : String) (cu : List String)
        (l : LinkValidator.Link),
        l ∈ LinkValidator.uniqueLinksOf env pageUrl → l.isExternal = false →
        l.absoluteUrl ∉ cu → (LinkValidator.fetchPage env pageUrl).isOk = true →
        l.absoluteUrl ∈
          (LinkValidator.validatePageLinks env pageUrl false cu).2.2) := by
  refine ⟨?_, ?_, ?_, ?_, ?_⟩
  · intro env site s s'
    rfl
  · exact LinkValidator.dedup_urls_nodup
  · intro env site
    unfold LinkValidator.siteTraceOf
    cases h : LinkValidator.validateSite env site [] with
    | none => simp
    | some rs => exact (LinkValidator.validateSite_delta env site [] rs h).1
  · intro env site
    unfold LinkValidator.siteBrokenUrlsOf
    cases h : LinkValidator.validateSite env site [] with
    | none => simp
    | some rs =>
      obtain ⟨h1, h2, _⟩ := LinkValidator.validateSite_delta env site [] rs h
      exact List.Nodup.sublist h2 h1
  · intro env pageUrl cu l hl hext hni hok
    unfold LinkValidator.validatePageLinks
    dsimp only
    rw [if_pos hok]
    exact LinkValidator.foldl_mem_probed env pageUrl false _ _ l
      (LinkValidator.uniq_pairwise env pageUrl) hl (Or.inl hext) hni

/-- Witness for C4: the demo main page's markup holds the same `/broken`
href twice; the crawl probes `http://demo.test/broken` (membership via the
theorem) and `checkedLinks = 1` shows it is probed exactly once. -/
theorem site_crawl_dedup_witness :
    (⟨"/broken", "http://demo.test/broken", false, false⟩ :
        LinkValidator.Link) ∈
      LinkValidator.uniqueLinksOf demoEnv "http://demo.test/" ∧
    "http://demo.test/broken" ∉ ([] : List String) ∧
    (LinkValidator.fetchPage demoEnv "http://demo.test/").isOk = true ∧
    "http://demo.test/broken" ∈
      (LinkValidator.validatePageLinks demoEnv "http://demo.test/" false []).2.2 ∧
    (LinkValidator.validatePageLinks demoEnv "http://demo.test/"
        false []).1.checkedLinks = 1 ∧
    ((LinkValidator.validatePageLinks demoEnv "http://demo.test/"
        false []).1.brokenLinks.map (fun b => b.url)) =
      ["http://demo.test/broken"] :=
  ⟨by decide, by decide, by decide,
   site_crawl_dedup.2.2.2.2 demoEnv "http://demo.test/" []
     ⟨"/broken", "http://demo.test/broken", false, false⟩
     (by decide) rfl (by decide) (by decide),
   by decide, by decide⟩

/-- C5: with external checking disabled (as every site crawl does), a
reference whose host differs from the page's host is never probed — every
URL in a site's probe trace comes from a non-external link of its page —
and the per-page `skippedExternal` count equals the number of distinct
external references found on the page (provided none of them is already in
the carried-over `checkedUrls` set, which holds in a site crawl since only
non-external URLs ever enter the set). -/
theorem external_links_never_probed :
    (∀ (env : JsEnv) (site : Site), ∀ v ∈ LinkValidator.siteTraceOf env site,
       ∃ s ∈ LinkValidator.sitePagesOf env site,
         ∃ l ∈ LinkValidator.uniqueLinksOf env s.pageUrl,
           l.absoluteUrl = v ∧ l.isExternal = false)
    ∧ (∀ (env : JsEnv) (pageUrl : String) (cu : List String),
        (∀ l ∈ LinkValidator.uniqueLinksOf env pageUrl,
           l.isExternal = true → l.absoluteUrl ∉ cu) →
        (LinkValidator.fetchPage env pageUrl).isOk = true →
        (LinkValidator.validatePageLinks env pageUrl
            false cu).1.skippedExternal =
          ((LinkValidator.uniqueLinksOf env pageUrl).filter
             (fun l => l.isExternal)).length) := by
  constructor
  · intro env site v hv
    unfold LinkValidator.siteTraceOf at hv
    unfold LinkValidator.sitePagesOf
    cases h : LinkValidator.validateSite env site [] with
    | none => rw [h] at hv; simp at hv
    | some rs =>
      rw [h] at hv
      exact (LinkValidator.validateSite_delta env site [] rs h).2.2 v hv
  · intro env pageUrl cu hextcu hok
    have hpair : ∀ a ∈ LinkValidator.uniqueLinksOf env pageUrl,
        ∀ b ∈ LinkValidator.uniqueLinksOf env pageUrl,
        a.isExternal = true → b.isExternal = false →
        a.absoluteUrl ≠ b.absoluteUrl := by
      intro a ha b hb hae hbe
      have hne : a ≠ b := by
        intro he
        rw [he, hbe] at hae
        exact absurd hae (by simp)
      exact List.Pairwise.forall (fun x y h => Ne.symm h)
        (LinkValidator.uniq_pairwise env pageUrl) ha hb hne
    have hsk := LinkValidator.foldl_skipped env pageUrl
      (LinkValidator.uniqueLinksOf env pageUrl)
      { checkedUrls := cu,
        counts := { totalLinks := (LinkValidator.uniqueLinksOf env pageUrl).length,
                    checkedLinks := 0, validLinks := 0, brokenLinks := [],
                    redirects := [], skippedExternal := 0 },
        probed := [] }
      hextcu hpair
    unfold LinkValidator.validatePageLinks
    dsimp only
    rw [if_pos hok]
    simpa [LinkValidator.PageScan.skippedExternal] using hsk

/-- Witness for C5: the demo main page holds one external reference;
`skippedExternal = 1`, and the external URL is absent from the probe
trace. -/
theorem external_links_never_probed_witness :
    (∀ l ∈ LinkValidator.uniqueLinksOf demoEnv "http://demo.test/",
       l.isExternal = true → l.absoluteUrl ∉ ([] : List String)) ∧
    (LinkValidator.fetchPage demoEnv "http://demo.test/").isOk = true ∧
    (LinkValidator.validatePageLinks demoEnv "http://demo.test/"
        false []).1.skippedExternal =
      ((LinkValidator.uniqueLinksOf demoEnv "http://demo.test/").filter
        (fun l => l.isExternal)).length ∧
    (LinkValidator.validatePageLinks demoEnv "http://demo.test/"
        false []).1.skippedExternal = 1 ∧
    "http://other.test/x" ∉
      (LinkValidator.validatePageLinks demoEnv "http://demo.test/" false []).2.2 :=
  ⟨by decide, by decide,
   external_links_never_probed.2 demoEnv "http://demo.test/" []
     (by decide) (by decide),
   by decide, by decide⟩

/-- Counterexample for C6 as stated: the claimed exclusions do not all
apply to both attribute kinds — a `src` attribute whose value starts with
`#` is extracted (the `#`/`javascript:`/`mailto:`/`tel:` skips guard only
`href` values). -/
theorem extraction_exclusions_counterexample :
    ¬ (∀ l ∈ LinkValidator.extractLinks demoEnv "<img src='#f'>" "http://a.test/",
         claimedExcluded l.href = false) := by
  decide

/-- C6 (amended): link extraction collects every `href` and `src` attribute
value of the markup, but each skip list guards only its own attribute kind:
`#`/`javascript:`/`mailto:`/`tel:` apply to `href` extraction and
`data:`/`blob:` apply to `src` extraction.  An extracted link violates
neither its kind's skip list, and every non-excluded capture that resolves
appears among the extracted links. -/
theorem extraction_attr_scoped_exclusions :
    (∀ (env : JsEnv) (html baseUrl : String),
       ∀ l ∈ LinkValidator.extractLinks env html baseUrl,
         (l.isResource = false → LinkValidator.hrefExcluded l.href = false) ∧
         (l.isResource = true → LinkValidator.srcExcluded l.href = false))
    ∧ (∀ (env : JsEnv) (html baseUrl : String) (b : RUrl) (cap : List Char)
        (lnk : LinkValidator.Link),
        env.parse baseUrl = .ok b →
        cap ∈ LinkValidator.scanAttr "href".toList html.toList →
        LinkValidator.hrefExcluded (String.mk cap) = false →
        LinkValidator.resolveLink env b baseUrl (String.mk cap) false = some lnk →
        lnk ∈ LinkValidator.extractLinks env html baseUrl)
    ∧ (∀ (env : JsEnv) (html baseUrl : String) (b : RUrl) (cap : List Char)
        (lnk : LinkValidator.Link),
        env.parse baseUrl = .ok b →
        cap ∈ LinkValidator.scanAttr "src".toList html.toList →
        LinkValidator.srcExcluded (String.mk cap) = false →
        LinkValidator.resolveLink env b baseUrl (String.mk cap) true = some lnk →
        lnk ∈ LinkValidator.extractLinks env html baseUrl) := by
  refine ⟨?_, ?_, ?_⟩
  · intro env html baseUrl l hl
    unfold LinkValidator.extractLinks at hl
    cases hp : env.parse baseUrl with
    | error m => rw [hp] at hl; simp at hl
    | ok b =>
      rw [hp] at hl
      dsimp only at hl
      have hres : ∀ (cap : List Char) (isRes : Bool),
          LinkValidator.resolveLink env b baseUrl (String.mk cap) isRes = some l →
          l.href = String.mk cap ∧ l.isResource = isRes := by
        intro cap isRes hr
        unfold LinkValidator.resolveLink at hr
        cases h1 : env.resolve (String.mk cap) baseUrl with
        | error m => rw [h1] at hr; simp at hr
        | ok au =>
          rw [h1] at hr
          dsimp only at hr
          cases h2 : env.parse au.full with
          | error m => rw [h2] at hr; simp at hr
          | ok re =>
            rw [h2] at hr
            simp only [Option.some.injEq] at hr
            rw [← hr]
            exact ⟨rfl, rfl⟩
      rcases List.mem_append.mp hl with h | h
      · rw [List.mem_filterMap] at h
        obtain ⟨cap, hcap, hf⟩ := h
        by_cases hex : LinkValidator.hrefExcluded (String.mk cap) = true
        · rw [if_pos hex] at hf; simp at hf
        · rw [if_neg hex] at hf
          obtain ⟨hhref, hres'⟩ := hres cap false hf
          constructor
          · intro _
            rw [hhref]
            exact Bool.not_eq_true _ ▸ (Bool.eq_false_iff.mpr hex)
          · intro hcontra
            rw [hres'] at hcontra
            exact absurd hcontra (by simp)
      · rw [List.mem_filterMap] at h
        obtain ⟨cap, hcap, hf⟩ := h
        by_cases hex : LinkValidator.srcExcluded (String.mk cap) = true
        · rw [if_pos hex] at hf; simp at hf
        · rw [if_neg hex] at hf
          obtain ⟨hhref, hres'⟩ := hres cap true hf
          constructor
          · intro hcontra
            rw [hres'] at hcontra
            exact absurd hcontra (by simp)
          · intro _
            rw [hhref]
            exact Bool.eq_false_iff.mpr hex
  · intro env html baseUrl b cap lnk hp hcap hex hr
    unfold LinkValidator.extractLinks
    rw [hp]
    dsimp only
    apply List.mem_append_left
    rw [List.mem_filterMap]
    refine ⟨cap, hcap, ?_⟩
    rw [if_neg (by simp [hex])]
    exact hr
  · intro env html baseUrl b cap lnk hp hcap hex hr
    unfold LinkValidator.extractLinks
    rw [hp]
    dsimp only
    apply List.mem_append_right
    rw [List.mem_filterMap]
    refine ⟨cap, hcap, ?_⟩
    rw [if_neg (by simp [hex])]
    exact hr

/-- Witness for C6's amended theorem: the `/broken` capture of the demo
markup is not excluded, resolves, and appears among the extracted links. -/
theorem extraction_attr_scoped_exclusions_witness :
    "/broken".toList ∈ LinkValidator.scanAttr "href".toList demoHtml.toList ∧
    LinkValidator.hrefExcluded (String.mk "/broken".toList) = false ∧
    LinkValidator.resolveLink demoEnv ⟨"http://demo.test/", "demo.test", "http:"⟩
        "http://demo.test/" (String.mk "/broken".toList) false =
      some ⟨"/broken", "http://demo.test/broken", false, false⟩ ∧
    (⟨"/broken", "http://demo.test/broken", false, false⟩ :
        LinkValidator.Link) ∈
      LinkValidator.extractLinks demoEnv demoHtml "http://demo.test/" :=
  ⟨by decide, by decide, by decide,
   extraction_attr_scoped_exclusions.2.1 demoEnv demoHtml "http://demo.test/"
     ⟨"http://demo.test/", "demo.test", "http:"⟩ "/broken".toList
     ⟨"/broken", "http://demo.test/broken", false, false⟩
     rfl (by decide) (by decide) (by decide)⟩

theorem scanPages_structure (env : JsEnv) (baseUrl : String) :
    ∀ (ps : List Page) (cu : List String) (rest : List LinkValidator.PageScan)
      (cu2 tr : List String),
      LinkValidator.scanPages env baseUrl ps cu = some (rest, cu2, tr) →
      rest.length = (ps.filter (fun p => p.path != "/")).length ∧
      ∀ s ∈ rest, ∃ p ∈ ps, p.path ≠ "/" ∧
        ∃ u, env.resolve p.path baseUrl = .ok u ∧ s.pageUrl = u.full := by
  intro ps
  induction ps with
  | nil =>
    intro cu rest cu2 tr h
    simp only [LinkValidator.scanPages, Option.some.injEq, Prod.mk.injEq] at h
    obtain ⟨h1, _, _⟩ := h
    subst h1
    exact ⟨by simp, by simp⟩
  | cons p ps ih =>
    intro cu rest cu2 tr h
    by_cases hroot : p.path = "/"
    · rw [LinkValidator.scanPages.eq_def] at h
      dsimp only at h
      rw [if_pos hroot] at h
      obtain ⟨hl, hmem⟩ := ih cu rest cu2 tr h
      refine ⟨?_, ?_⟩
      · rw [hl, List.filter_cons]
        simp [hroot]
      · intro s hs
        obtain ⟨q, hq, hqne, u, hu, hsu⟩ := hmem s hs
        exact ⟨q, List.mem_cons_of_mem _ hq, hqne, u, hu, hsu⟩
    · rw [LinkValidator.scanPages.eq_def] at h
      dsimp only at h
      rw [if_neg hroot] at h
      cases hres : env.resolve p.path baseUrl with
      | error e => rw [hres] at h; simp at h
      | ok u =>
        rw [hres] at h
        dsimp only at h
        cases hsp : LinkValidator.scanPages env baseUrl ps
            (LinkValidator.validatePageLinks env u.full false cu).2.1 with
        | none => rw [hsp] at h; simp at h
        | some t3 =>
          obtain ⟨rest1, cu21, trs⟩ := t3
          rw [hsp] at h
          simp only [Option.some.injEq, Prod.mk.injEq] at h
          obtain ⟨h1, _, _⟩ := h
          subst h1
          obtain ⟨hl, hmem⟩ := ih _ rest1 cu21 trs hsp
          refine ⟨?_, ?_⟩
          · rw [List.filter_cons]
            simp only [List.length_cons, hl]
            have : (p.path != "/") = true := by simp [hroot]
            rw [this]
            simp
          · intro s hs
            rcases List.mem_cons.mp hs with rfl | hs1
            · refine ⟨p, List.mem_cons_self _ _, hroot, u, hres, ?_⟩
              rw [LinkValidator.setName_pageUrl,
                LinkValidator.validatePageLinks_pageUrl]
            · obtain ⟨q, hq, hqne, u1, hu1, hsu1⟩ := hmem s hs1
              exact ⟨q, List.mem_cons_of_mem _ hq, hqne, u1, hu1, hsu1⟩

theorem probePages_structure (cfg : UptimeMonitor.Cfg) (env : JsEnv)
    (baseUrl : String) :
    ∀ (ps : List Page) (rest : List UptimeMonitor.PageProbe),
      UptimeMonitor.probePages cfg env baseUrl ps = some rest →
      rest.length = ps.length ∧
      ∀ p ∈ ps, ∃ pr ∈ rest, pr.pagePath = some p.path := by
  intro ps
  induction ps with
  | nil =>
    intro rest h
    simp only [UptimeMonitor.probePages, Option.some.injEq] at h
    subst h
    exact ⟨rfl, by simp⟩
  | cons p ps ih =>
    intro rest h
    rw [UptimeMonitor.probePages.eq_def] at h
    dsimp only at h
    cases hres : env.resolve p.path baseUrl with
    | error e => rw [hres] at h; simp at h
    | ok u =>
      rw [hres] at h
      dsimp only at h
      cases hrec : UptimeMonitor.probePages cfg env baseUrl ps with
      | none => rw [hrec] at h; simp at h
      | some rest1 =>
        rw [hrec] at h
        simp only [Option.some.injEq] at h
        subst h
        obtain ⟨hl, hmem⟩ := ih rest1 hrec
        refine ⟨by simp [hl], ?_⟩
        intro q hq
        rcases List.mem_cons.mp hq with rfl | hq1
        · exact ⟨_, List.mem_cons_self _ _, rfl⟩
        · obtain ⟨pr, hpr, hprp⟩ := hmem q hq1
          exact ⟨pr, List.mem_cons_of_mem _ hpr, hprp⟩

/-- C10: `LinkValidator.validateSite` skips every configured page whose
path is exactly `"/"`, so (whenever the other paths resolve away from the
base URL) the site's main URL appears exactly once among the scanned
pages; `UptimeMonitor.checkSitePages` applies no such skip and probes a
`"/"` page in addition to the main URL. -/
theorem root_path_page_skip :
    (∀ (env : JsEnv) (site : Site),
       (LinkValidator.validateSite env site []).isSome = true →
       (LinkValidator.sitePagesOf env site).length =
         1 + (site.pages.filter (fun p => p.path != "/")).length)
    ∧ (∀ (env : JsEnv) (site : Site),
        (LinkValidator.validateSite env site []).isSome = true →
        (∀ p ∈ site.pages, p.path ≠ "/" →
           LinkValidator.resolvesAway env site.url p.path site.url = true) →
        ((LinkValidator.sitePagesOf env site).filter
           (fun s => s.pageUrl == site.url)).length = 1)
    ∧ (∀ (cfg : UptimeMonitor.Cfg) (env : JsEnv) (site : Site),
        (UptimeMonitor.checkSitePages cfg env site).isSome = true →
        (UptimeMonitor.uptimePagesOf cfg env site).length =
            1 + site.pages.length ∧
        ∀ p ∈ site.pages, ∃ pr ∈ UptimeMonitor.uptimePagesOf cfg env site,
          pr.pagePath = some p.path) := by
  refine ⟨?_, ?_, ?_⟩
  · intro env site hsome
    unfold LinkValidator.sitePagesOf
    unfold LinkValidator.validateSite at hsome ⊢
    dsimp only at hsome ⊢
    cases hsp : LinkValidator.scanPages env site.url site.pages
        (LinkValidator.validatePageLinks env site.url false []).2.1 with
    | none => rw [hsp] at hsome; simp at hsome
    | some t3 =>
      obtain ⟨rest, cu2, tr2⟩ := t3
      dsimp only
      obtain ⟨hl, _⟩ := scanPages_structure env site.url site.pages _ rest cu2 tr2 hsp
      simp [hl, Nat.add_comm]
  · intro env site hsome haway
    unfold LinkValidator.sitePagesOf
    unfold LinkValidator.validateSite at hsome ⊢
    dsimp only at hsome ⊢
    cases hsp : LinkValidator.scanPages env site.url site.pages
        (LinkValidator.validatePageLinks env site.url false []).2.1 with
    | none => rw [hsp] at hsome; simp at hsome
    | some t3 =>
      obtain ⟨rest, cu2, tr2⟩ := t3
      dsimp only
      obtain ⟨_, hmem⟩ := scanPages_structure env site.url site.pages _ rest cu2 tr2 hsp
      rw [List.filter_cons]
      have hhead : (((LinkValidator.validatePageLinks env site.url
          false []).1.setName "Main").pageUrl == site.url) = true := by
        rw [LinkValidator.setName_pageUrl, LinkValidator.validatePageLinks_pageUrl]
        simp
      rw [hhead]
      have hrest : rest.filter (fun s => s.pageUrl == site.url) = [] := by
        rw [List.filter_eq_nil_iff]
        intro s hs
        obtain ⟨p, hp, hpne, u, hu, hsu⟩ := hmem s hs
        have ha := haway p hp hpne
        unfold LinkValidator.resolvesAway at ha
        rw [hu] at ha
        simp only [bne_iff_ne, ne_eq] at ha
        simp [hsu, ha]
      simp [hrest]
  · intro cfg env site hsome
    unfold UptimeMonitor.uptimePagesOf
    unfold UptimeMonitor.checkSitePages at hsome ⊢
    dsimp only at hsome ⊢
    cases hpp : UptimeMonitor.probePages cfg env site.url site.pages with
    | none => rw [hpp] at hsome; simp at hsome
    | some rest =>
      dsimp only
      obtain ⟨hl, hmem⟩ := probePages_structure cfg env site.url site.pages rest hpp
      refine ⟨by simp [hl, Nat.add_comm], ?_⟩
      intro p hp
      obtain ⟨pr, hpr, hprp⟩ := hmem p hp
      exact ⟨pr, List.mem_cons_of_mem _ hpr, hprp⟩

/-- Witness for C10 at the demo site (a `"/"` page plus an `/about` page):
the link crawl scans two pages with the main URL appearing once, while the
uptime monitor probes three pages including the `"/"` page. -/
theorem root_path_page_skip_witness :
    (LinkValidator.validateSite demoEnv demoSite []).isSome = true ∧
    (LinkValidator.sitePagesOf demoEnv demoSite).length =
      1 + (demoSite.pages.filter (fun p => p.path != "/")).length ∧
    ((LinkValidator.sitePagesOf demoEnv demoSite).filter
       (fun s => s.pageUrl == demoSite.url)).length = 1 ∧
    (UptimeMonitor.checkSitePages ⟨2000, 5000⟩ demoEnv demoSite).isSome = true ∧
    (UptimeMonitor.uptimePagesOf ⟨2000, 5000⟩ demoEnv demoSite).length =
      1 + demoSite.pages.length ∧
    (∃ pr ∈ UptimeMonitor.uptimePagesOf ⟨2000, 5000⟩ demoEnv demoSite,
      pr.pagePath = some "/") :=
  ⟨by decide,
   root_path_page_skip.1 demoEnv demoSite (by decide),
   root_path_page_skip.2.1 demoEnv demoSite (by decide) (by decide),
   by decide,
   (root_path_page_skip.2.2 ⟨2000, 5000⟩ demoEnv demoSite (by decide)).1,
   (root_path_page_skip.2.2 ⟨2000, 5000⟩ demoEnv demoSite (by decide)).2
     ⟨"/", "Root"⟩ (by decide)⟩

